import Mathlib

/-!
Verification development for the IntegralQ-BI analysis backend.

The Python sources are shallowly embedded:
pure functions become Lean functions over `ℚ` (Python floats are modelled as
exact rationals), `String` and explicit algebraic datatypes; fallible code
returns `Option`; pandas dataframes are modelled column-major as lists of
typed columns.  Character classes (`\w`, `\s`, `str.strip`, `str.lower`)
are modelled on the fragment of Unicode consisting of ASCII together with
U+0130 (LATIN CAPITAL LETTER I WITH DOT ABOVE) and U+0307 (COMBINING DOT
ABOVE); on this fragment the model matches CPython exactly — in particular
`str.lower` expands U+0130 to the two-character sequence "i", U+0307 per
Unicode SpecialCasing, so lowercasing is a string-level operation.
-/

/-! ## Python numeric primitives -/

/-- Python `int(x)` on a float/rational: truncation toward zero. -/
def pyInt (q : ℚ) : ℤ := if q < 0 then ⌈q⌉ else ⌊q⌋

/-- Python `round(x)`: round half to even (banker's rounding). -/
def pyRound (q : ℚ) : ℤ :=
  if q - (⌊q⌋ : ℚ) < 1/2 then ⌊q⌋
  else if (1:ℚ)/2 < q - (⌊q⌋ : ℚ) then ⌊q⌋ + 1
  else if 2 ∣ ⌊q⌋ then ⌊q⌋ else ⌊q⌋ + 1

/-- Python `round(x, k)`: round to `k` decimal places, half to even. -/
def roundTo (k : ℕ) (q : ℚ) : ℚ := (pyRound (q * 10 ^ k) : ℚ) / 10 ^ k

/-! ## Character classes (modelled fragment of Python semantics) -/

/-- Python whitespace (`str.strip` default set, regex `\s`) on the modelled
fragment: space, tab, newline, carriage return, vertical tab, form feed,
and the ASCII separator controls U+001C-U+001F, all of which CPython's
`str.isspace` and regex `\s` accept.  Neither U+0130 nor U+0307 is
whitespace. -/
def pySpace (c : Char) : Bool :=
  decide (c.toNat = 32 ∨ c.toNat = 9 ∨ c.toNat = 10 ∨ c.toNat = 13 ∨
          c.toNat = 11 ∨ c.toNat = 12 ∨ (28 ≤ c.toNat ∧ c.toNat ≤ 31))

/-- Regex `\w` on the modelled fragment: ASCII letters, digits and
underscore, plus U+0130 — an uppercase letter (category Lu), hence a
Unicode word character.  U+0307 is a combining mark (category Mn), which
Python's Unicode `\w` does NOT match. -/
def isWordChar (c : Char) : Bool :=
  decide ((48 ≤ c.toNat ∧ c.toNat ≤ 57) ∨ (65 ≤ c.toNat ∧ c.toNat ≤ 90) ∨
          (97 ≤ c.toNat ∧ c.toNat ≤ 122) ∨ c.toNat = 95 ∨ c.toNat = 304)

/-- ASCII decimal digit. -/
def isDigitCh (c : Char) : Bool := decide (48 ≤ c.toNat ∧ c.toNat ≤ 57)

/-- Simple (single-character) lowercase map: ASCII uppercase goes to the
corresponding lowercase letter, everything else is fixed. -/
def charLower (c : Char) : Char :=
  if h : 65 ≤ c.toNat ∧ c.toNat ≤ 90 then
    Char.ofNatAux (c.toNat + 32) (Or.inl (by omega))
  else c

/-- The character U+0130, LATIN CAPITAL LETTER I WITH DOT ABOVE
(Turkish dotted capital I). -/
def turkishDottedI : Char := Char.ofNatAux 304 (Or.inl (by omega))

/-- The character U+0307, COMBINING DOT ABOVE — the second character of
CPython's lowercase form of U+0130. -/
def combiningDotAbove : Char := Char.ofNatAux 775 (Or.inl (by omega))

/-- Python `str.lower` on one character, as a character sequence.  On the
modelled fragment this is exactly CPython's behaviour: ASCII uppercase maps
to lowercase, and U+0130 expands — per Unicode SpecialCasing, which
`str.lower` implements — to "i" followed by U+0307; every other modelled
character is fixed. -/
def lowerChars (c : Char) : List Char :=
  if c.toNat = 304 then ['i', combiningDotAbove] else [charLower c]

/-- Python `str.lower` over a character list. -/
def lowerAll : List Char → List Char
  | [] => []
  | c :: cs => lowerChars c ++ lowerAll cs

/-- Python `str.lower`. -/
def strLower (s : String) : String := ⟨lowerAll s.data⟩

/-- Python `str.strip()` on a character list: drop whitespace at both ends. -/
def pyStripL (l : List Char) : List Char :=
  ((l.dropWhile pySpace).reverse.dropWhile pySpace).reverse

/-- Regex substitution `\s+` ↦ `_`: every maximal whitespace run becomes one
underscore.  `inRun` records whether the previous character was whitespace. -/
def collapseWsGo : Bool → List Char → List Char
  | _, [] => []
  | inRun, c :: cs =>
    if pySpace c then
      if inRun then collapseWsGo true cs else '_' :: collapseWsGo true cs
    else c :: collapseWsGo false cs

/-- `UniversalCleaner._standardize_header` (cleaner.py lines 197-202):
strip, delete characters that are neither word nor whitespace
(regex `[^\w\s]` ↦ empty), collapse whitespace runs to single underscores
(regex `\s+` ↦ `_`), lowercase. -/
def standardizeHeader (s : String) : String :=
  ⟨lowerAll (collapseWsGo false ((pyStripL s.data).filter
      (fun c => isWordChar c || pySpace c)))⟩

/-- Helper: does `pat` occur as a contiguous sublist of the second argument? -/
def listContains (pat : List Char) : List Char → Bool
  | [] => pat.isEmpty
  | c :: cs => pat.isPrefixOf (c :: cs) || listContains pat cs

/-- Python substring test `pat in s` on exact strings. -/
def containsSub (s : String) (pat : String) : Bool := listContains pat.data s.data

/-! ## Data model: pandas values, dtypes, columns, dataframes -/

/-- A scalar cell value.  `vNull` models Python `None`/float `NaN` (anything
`pd.isna` accepts); `vDate d` models a datetime as a rational number of days
since the epoch 1899-12-30 (fractional part = time of day). -/
inductive PyVal where
  | vNull : PyVal
  | vNum : ℚ → PyVal
  | vStr : String → PyVal
  | vDate : ℚ → PyVal
deriving DecidableEq

/-- `pd.isna` on a cell. -/
def PyVal.isNull : PyVal → Bool
  | .vNull => true
  | _ => false

/-- Python `str(value)` as used by `astype(str)`.  The only behaviour the
claims depend on is that null cells render as the four-character string
"nan" and non-null cells render as some string; numeric and date renderings
are stand-ins for Python's float repr. -/
def pyStr : PyVal → String
  | .vNull => "nan"
  | .vStr s => s
  | .vNum q => "num:" ++ toString q.num ++ "/" ++ toString q.den
  | .vDate d => "dt:" ++ toString d.num ++ "/" ++ toString d.den

/-- A pandas column storage type. -/
inductive Dtype where
  | number : Dtype
  | object : Dtype
  | category : Dtype
  | datetime : Dtype
deriving DecidableEq

/-- One dataframe column: header, storage dtype and cells. -/
structure Column where
  name : String
  dtype : Dtype
  cells : List PyVal
deriving DecidableEq

/-- A dataframe, column-major. -/
abbrev Df := List Column

/-- Default column used for out-of-range indexing. -/
def dfltCol : Column := ⟨"", Dtype.object, []⟩

/-- Column at index `k`. -/
def colAt (df : Df) (k : ℕ) : Column := df.getD k dfltCol

/-- Cell of column `c` at row `i` (`vNull` when out of range). -/
def cellAt (c : Column) (i : ℕ) : PyVal := c.cells.getD i .vNull

/-- Number of rows: the length of the first column (0 for an empty frame). -/
def nRows (df : Df) : ℕ :=
  match df with
  | [] => 0
  | c :: _ => c.cells.length

/-- Row `i` of the frame, in column order (a record of `df.to_dict('records')`). -/
def rowAt (df : Df) (i : ℕ) : List PyVal := df.map (fun c => cellAt c i)

/-- Is row `i` null in every column (`dropna(how='all')` drops such rows)? -/
def rowAllNull (df : Df) (i : ℕ) : Bool := df.all (fun c => (cellAt c i).isNull)

/-! ## UniversalCleaner (cleaner.py) -/

/-- `UniversalCleaner._convert_excel_date` (cleaner.py lines 139-149):
null passes through; a numeric value `v` with `20000 < v < 100000` becomes
the timestamp `1899-12-30 + int(v)` days (Python `int` truncates the
fractional part); everything else is returned unchanged.  The
`pd.Timestamp + pd.Timedelta` construction cannot fail in this range, so
the `except` branch of the source is unreachable. -/
def convertExcelDate (v : PyVal) : PyVal :=
  match v with
  | .vNum q => if 20000 < q ∧ q < 100000 then .vDate ((pyInt q : ℤ) : ℚ) else v
  | _ => v

/-- Spec-side version of the Excel serial conversion, following the claim's
words: the converted date equals 1899-12-30 plus `v` days (not `int(v)`). -/
def specConvertExcelDate (v : PyVal) : PyVal :=
  match v with
  | .vNum q => if 20000 < q ∧ q < 100000 then .vDate q else v
  | _ => v

/-- `StatisticalAnalyzer._convert_date` (analyzer.py lines 246-264): dates
pass through; a numeric serial in `(20000, 100000)` maps to the epoch plus
`int(v)` days; strings go through `pd.to_datetime` (modelled by the oracle
`parseStr`); every remaining value — including numerics outside the serial
range and nulls — falls back to `datetime.now()` (the `now` parameter). -/
def convertDate (now : ℚ) (parseStr : String → Option ℚ) (v : PyVal) : ℚ :=
  match v with
  | .vDate d => d
  | .vNum q => if 20000 < q ∧ q < 100000 then ((pyInt q : ℤ) : ℚ) else now
  | .vStr s => (parseStr s).getD now
  | .vNull => now

/-- The cleaning rules named in `UniversalCleaner.DOMAIN_RULES`
(cleaner.py lines 22-39).  `normalize_names` and `convert_dates` appear in
the dictionary but have no branch in `_apply_cleaning_rules`, so applying
them is a silent no-op. -/
inductive CleaningRule where
  | currency : CleaningRule
  | percent : CleaningRule
  | nulls : CleaningRule
  | trim : CleaningRule
  | normalizeNames : CleaningRule
  | convertDates : CleaningRule
deriving DecidableEq

/-- `DOMAIN_RULES.get(domain, DOMAIN_RULES['general'])`. -/
def DOMAIN_RULES (domain : String) : List CleaningRule :=
  if domain = "finance" then [.currency, .percent, .nulls, .trim]
  else if domain = "hr" then [.normalizeNames, .convertDates, .nulls, .trim]
  else [.nulls, .trim]

/-- Regex `^[\$£€¥][\d,\.]+$` from the currency rule. -/
def isCurrencyStr (s : String) : Bool :=
  match s.data with
  | [] => false
  | c :: rest =>
    (['$', '£', '€', '¥'].contains c) && !rest.isEmpty &&
      rest.all (fun d => isDigitCh d || d == ',' || d == '.')

/-- Regex `^\d+\.?\d*%$` from the percentage rule. -/
def isPercentStr (s : String) : Bool :=
  let l := s.data
  let d1 := l.takeWhile isDigitCh
  let r1 := l.dropWhile isDigitCh
  if d1.isEmpty then false
  else
    match r1 with
    | ['%'] => true
    | '.' :: r2 => r2.dropWhile isDigitCh == ['%']
    | _ => false

/-- Value of an unsigned decimal digit string. -/
def digitsToNat (ds : List Char) : ℕ := ds.foldl (fun a c => a * 10 + (c.toNat - 48)) 0

/-- Model of Python `float(s)` restricted to optional-sign decimal literals:
`none` models the `ValueError` raised on any other string. -/
def parseDecimal (l : List Char) : Option ℚ :=
  let p := match l with
    | '-' :: rest => (true, rest)
    | _ => (false, l)
  let ip := p.2.takeWhile isDigitCh
  let r := p.2.dropWhile isDigitCh
  let fpOpt : Option (List Char) :=
    match r with
    | [] => some []
    | '.' :: fr => if fr.all isDigitCh then some fr else none
    | _ => none
  match fpOpt with
  | none => none
  | some fp =>
    if ip.isEmpty ∧ fp.isEmpty then none
    else
      let mag : ℚ := (digitsToNat ip : ℚ) + (digitsToNat fp : ℚ) / 10 ^ fp.length
      some (if p.1 then -mag else mag)

/-- `pd.Series.astype(float)` on one already-stringified cell: the string
"nan" parses to float NaN (modelled `vNull`), decimal literals to numbers,
anything else raises (modelled `none`). -/
def parseFloat (s : String) : Option PyVal :=
  let t := pyStripL s.data
  if String.mk t = "nan" then some .vNull
  else (parseDecimal t).map .vNum

/-- Character filter for `str.replace(r'[\$£€¥,]', '', regex=True)`. -/
def removeCurrencyChars (s : String) : String :=
  ⟨s.data.filter (fun c => !(['$', '£', '€', '¥', ','].contains c))⟩

/-- Failure-propagating map: `some` of the mapped list when `f` succeeds on
every element, `none` as soon as it fails (the Option `mapM`). -/
def optMap {α β : Type} (f : α → Option β) : List α → Option (List β)
  | [] => some []
  | a :: as =>
    match f a, optMap f as with
    | some b, some bs => some (b :: bs)
    | _, _ => none

/-- Currency rule on one column (cleaner.py lines 156-161): an object column
in which some stringified cell matches the currency regex is re-parsed as
float (dtype becomes numeric); a parse failure anywhere raises. -/
def applyCurrencyCol (c : Column) : Option Column :=
  if c.dtype = .object ∧ c.cells.any (fun v => isCurrencyStr (pyStr v)) then
    (optMap (fun v => parseFloat (removeCurrencyChars (pyStr v))) c.cells).map
      (fun cells => ⟨c.name, .number, cells⟩)
  else some c

/-- Was the currency rule triggered for this column (used for its log line)? -/
def currencyTriggered (c : Column) : Bool :=
  c.dtype = .object ∧ c.cells.any (fun v => isCurrencyStr (pyStr v))

/-- Percentage rule on one column (cleaner.py lines 163-168): strip `%`,
parse as float, divide by 100 (NaN stays NaN). -/
def applyPercentCol (c : Column) : Option Column :=
  if c.dtype = .object ∧ c.cells.any (fun v => isPercentStr (pyStr v)) then
    (optMap (fun v =>
        (parseFloat ⟨(pyStr v).data.filter (fun ch => !(ch == '%'))⟩).map
          (fun p => match p with
            | .vNum q => PyVal.vNum (q / 100)
            | other => other)) c.cells).map
      (fun cells => ⟨c.name, .number, cells⟩)
  else some c

/-- Was the percentage rule triggered for this column? -/
def percentTriggered (c : Column) : Bool :=
  c.dtype = .object ∧ c.cells.any (fun v => isPercentStr (pyStr v))

/-- Total count of null cells, `df.isna().sum().sum()`. -/
def nullCount (df : Df) : ℕ := (df.map (fun c => (c.cells.filter (·.isNull)).length)).sum

/-- Whitespace-trim rule on one column (cleaner.py lines 175-177):
`df[col] = df[col].astype(str).str.strip()` for every object column.  The
`astype(str)` coerces null cells to the literal string "nan". -/
def trimCol (c : Column) : Column :=
  if c.dtype = .object then
    ⟨c.name, c.dtype, c.cells.map (fun v => .vStr (String.mk (pyStripL (pyStr v).data)))⟩
  else c

/-- One iteration of the rule loop in `_apply_cleaning_rules`
(cleaner.py lines 151-177), returning the new frame and the log lines the
rule appended (`none` models an uncaught exception). -/
def applyRule (df : Df) : CleaningRule → Option (Df × List String)
  | .currency =>
    (optMap applyCurrencyCol df).map (fun df' =>
      (df', df.filterMap (fun c =>
        if currencyTriggered c then some ("[CURRENCY] Converted currency in " ++ c.name)
        else none)))
  | .percent =>
    (optMap applyPercentCol df).map (fun df' =>
      (df', df.filterMap (fun c =>
        if percentTriggered c then some ("[PERCENT] Converted percentages in " ++ c.name)
        else none)))
  | .nulls =>
    some (df, if 0 < nullCount df then
      ["[NULL] Handled " ++ toString (nullCount df) ++ " null/empty values"] else [])
  | .trim => some (df.map trimCol, [])
  | .normalizeNames => some (df, [])
  | .convertDates => some (df, [])

/-- The rule loop itself, threading the frame and accumulating logs. -/
def applyRulesAux : Df → List String → List CleaningRule → Option (Df × List String)
  | df, logs, [] => some (df, logs)
  | df, logs, r :: rs =>
    match applyRule df r with
    | none => none
    | some (df', ls) => applyRulesAux df' (logs ++ ls) rs

/-- `UniversalCleaner._apply_cleaning_rules` (cleaner.py lines 151-180):
run every rule in order, then append the closing "[RULES] Applied n ..."
log line. -/
def applyCleaningRules (df : Df) (rules : List CleaningRule) : Option (Df × List String) :=
  (applyRulesAux df [] rules).map (fun p =>
    (p.1, p.2 ++ ["[RULES] Applied " ++ toString rules.length ++
      " domain-specific cleaning rules"]))

/-- Indices of rows that survive `df.dropna(how='all')`. -/
def keptIndices (df : Df) : List ℕ :=
  (List.range (nRows df)).filter (fun i => !rowAllNull df i)

/-- `df.dropna(how='all')` (cleaner.py line 76). -/
def dropEmptyRows (df : Df) : Df :=
  df.map (fun c => ⟨c.name, c.dtype, (keptIndices df).map (fun i => cellAt c i)⟩)

/-- `df.select_dtypes(include=[np.number]).columns` (cleaner.py line 82). -/
def numericColumnsRaw (df : Df) : List String :=
  (df.filter (fun c => c.dtype = .number)).map (·.name)

/-- `df.select_dtypes(include=['object', 'category']).columns` (line 83). -/
def categoricalColumnsRaw (df : Df) : List String :=
  (df.filter (fun c => c.dtype = .object ∨ c.dtype = .category)).map (·.name)

/-- Name patterns from `_detect_date_columns` (cleaner.py line 185). -/
def datePatterns : List String := ["date", "time", "month", "year", "period"]

/-- Does the lowercased column name contain a date pattern? -/
def nameMatchesDatePattern (n : String) : Bool :=
  datePatterns.any (fun p => containsSub (strLower n) p)

/-- `UniversalCleaner._detect_date_columns` (cleaner.py lines 182-195):
a column is a date column when its name matches a date pattern or its
storage dtype is datetime. -/
def detectDateColumns (df : Df) : List String :=
  (df.filter (fun c => nameMatchesDatePattern c.name || c.dtype = .datetime)).map (·.name)

/-- Result dictionary of `UniversalCleaner.clean` (the fields the claims
are about; the narrative log lines before the rule logs, and the
`[NUMERIC]`/`[CATEGORY]`/header/final log lines, are not modelled). -/
structure CleanResult where
  headers : List String
  rows : List (List PyVal)
  numeric_columns : List String
  categorical_columns : List String
  date_columns : List String
  row_count : ℕ
  cleaning_log : List String
deriving DecidableEq

/-- `UniversalCleaner.clean` after file parsing (cleaner.py lines 68-108):
apply the domain's cleaning rules, drop rows that are null in every column,
detect column types on the resulting frame, and standardize headers.
Numeric columns that are also date columns are excluded (on raw names,
before standardization), exactly as on line 101. -/
def clean (df : Df) (domain : String) : Option CleanResult :=
  (applyCleaningRules df (DOMAIN_RULES domain)).map (fun p =>
    let df₂ := dropEmptyRows p.1
    let removed := nRows df - nRows df₂
    let numeric := numericColumnsRaw df₂
    let categorical := categoricalColumnsRaw df₂
    let dates := detectDateColumns df₂
    { headers := df₂.map (fun c => standardizeHeader c.name)
      rows := (List.range (nRows df₂)).map (rowAt df₂)
      numeric_columns := (numeric.filter (fun c => !dates.contains c)).map standardizeHeader
      categorical_columns := categorical.map standardizeHeader
      date_columns := dates.map standardizeHeader
      row_count := nRows df₂
      cleaning_log := p.2 ++
        (if 0 < removed then
          ["[CLEAN] Removed " ++ toString removed ++ " invalid/empty rows"] else []) })

/-! ## StatisticalAnalyzer (analyzer.py) -/

/-- The "weak" insight templates (analyzer.py lines 96-101), as functions of
(A, B, R, DIR) — Python's `str.format` on these literal templates. -/
def weakTemplates : List (String → String → String → String → String) :=
  [fun A B R _ => "Minimal linear relationship between " ++ A ++ " and " ++ B ++ " (r=" ++ R ++ ").",
   fun A B R _ => "Analysis suggests " ++ A ++ " and " ++ B ++ " operate independently (r=" ++ R ++ ").",
   fun A B R _ => "No significant correlation found between " ++ A ++ " and " ++ B ++ " (r=" ++ R ++ ").",
   fun A B R _ => A ++ " does not appear to be a strong driver of " ++ B ++ " (r=" ++ R ++ ")."]

/-- The "strong" insight templates (analyzer.py lines 103-107). -/
def strongTemplates : List (String → String → String → String → String) :=
  [fun A B R DIR => "Strong " ++ DIR ++ " relationship between " ++ A ++ " and " ++ B ++ " (r=" ++ R ++ ").",
   fun A B R _ => A ++ " is a significant indicator of " ++ B ++ " (r=" ++ R ++ ").",
   fun A B R _ => "Data correlation patterns link " ++ A ++ " closely with " ++ B ++ " (r=" ++ R ++ ")."]

/-- The single "moderate" template (analyzer.py line 115). -/
def moderateTemplates : List (String → String → String → String → String) :=
  [fun A B R DIR => "Moderate " ++ DIR ++ " correlation between " ++ A ++ " and " ++ B ++ " (r=" ++ R ++ ")."]

/-- Bucket selection by correlation magnitude (analyzer.py lines 110-115). -/
def templatesFor (corr : ℚ) : List (String → String → String → String → String) :=
  if |corr| > 7/10 then strongTemplates
  else if |corr| < 3/10 then weakTemplates
  else moderateTemplates

/-- Python `f"{corr:.2f}"`: fixed-point rendering with two decimals. -/
def fmt2 (q : ℚ) : String :=
  let n : ℤ := pyRound (q * 100)
  let m : ℕ := n.natAbs
  (if n < 0 then "-" else "") ++ toString (m / 100) ++ "." ++
    (if m % 100 < 10 then "0" else "") ++ toString (m % 100)

/-- The index expression of analyzer.py line 118:
`len(col1) + len(col2) + int(corr * 100)`. -/
def templateIndexInt (col1 col2 : String) (corr : ℚ) : ℤ :=
  (col1.length : ℤ) + (col2.length : ℤ) + pyInt (corr * 100)

/-- `StatisticalAnalyzer._generate_insight` (analyzer.py lines 93-122). -/
def generateInsight (col1 col2 : String) (corr : ℚ) : String :=
  let templates := templatesFor corr
  let index := templateIndexInt col1 col2 corr % (templates.length : ℤ)
  let template := templates.getD index.toNat (fun _ _ _ _ => "")
  let direction := if 0 < corr then "positive" else "negative"
  template col1 col2 (fmt2 corr) direction

/-- Spec-side insight generator, following the claim's formula
`(len(col1) + len(col2) + round(r*100)) mod templateCount` with Python
`round` (half to even) in place of the code's `int` truncation. -/
def specInsight (col1 col2 : String) (corr : ℚ) : String :=
  let templates := templatesFor corr
  let index := ((col1.length : ℤ) + (col2.length : ℤ) + pyRound (corr * 100)) %
    (templates.length : ℤ)
  let template := templates.getD index.toNat (fun _ _ _ _ => "")
  let direction := if 0 < corr then "positive" else "negative"
  template col1 col2 (fmt2 corr) direction

/-- Spec-side insight generator for the amended claim: identical to the
claim's formula except that the scaled correlation is truncated toward zero
(Python `int`), exactly as on analyzer.py line 118. -/
def amendedSpecInsight (col1 col2 : String) (corr : ℚ) : String :=
  let templates := templatesFor corr
  let index := ((col1.length : ℤ) + (col2.length : ℤ) + pyInt (corr * 100)) %
    (templates.length : ℤ)
  let template := templates.getD index.toNat (fun _ _ _ _ => "")
  let direction := if 0 < corr then "positive" else "negative"
  template col1 col2 (fmt2 corr) direction

/-- One entry of the correlation list (analyzer.py lines 82-87). -/
structure CorrelationRecord where
  feature_a : String
  feature_b : String
  correlation : ℚ
  insight : String
deriving DecidableEq

/-- The identifier-name exclusion list (analyzer.py line 68). -/
def identifierSubstrings : List String := ["id", "code", "key", "extension"]

/-- Is one of the identifier substrings contained in the lowercased name? -/
def isIdentifierName (c : String) : Bool :=
  identifierSubstrings.any (fun x => containsSub (strLower c) x)

/-- The `meaningful_cols` filter (analyzer.py lines 67-69): numeric columns
that contain no identifier substring and exist in the frame. -/
def meaningfulCols (numericCols dfCols : List String) : List String :=
  numericCols.filter (fun c => !isIdentifierName c && dfCols.contains c)

/-- All ordered pairs `(l[i], l[j])` with `i < j`, in the enumeration order
of the double loop on analyzer.py lines 78-79. -/
def pairsAfter : List String → List (String × String)
  | [] => []
  | x :: xs => xs.map (fun y => (x, y)) ++ pairsAfter xs

/-- Descending order on the absolute stored correlation: the sort key of
analyzer.py line 90 (`key=lambda x: abs(x['correlation'])`, `reverse=True`). -/
def corrGe (a b : CorrelationRecord) : Prop := |b.correlation| ≤ |a.correlation|

instance : DecidableRel corrGe :=
  fun a b => inferInstanceAs (Decidable (|b.correlation| ≤ |a.correlation|))

instance : IsTotal CorrelationRecord corrGe :=
  ⟨fun a b => (le_total |b.correlation| |a.correlation|).imp id id⟩

instance : IsTrans CorrelationRecord corrGe :=
  ⟨fun _ _ _ h₁ h₂ => le_trans h₂ h₁⟩

/-- The records emitted by the pair loop (analyzer.py lines 78-87), before
sorting and capping: one record per pair whose correlation (given by the
matrix oracle `corrM`) is defined and exceeds 0.3 in absolute value.  The
stored correlation is rounded to 3 decimals; the threshold uses the
unrounded value. -/
def corrRecords (corrM : String → String → Option ℚ) (m : List String) :
    List CorrelationRecord :=
  (pairsAfter m).filterMap (fun p =>
    match corrM p.1 p.2 with
    | some r =>
      if 3/10 < |r| then
        some ⟨p.1, p.2, roundTo 3 r, generateInsight p.1 p.2 r⟩
      else none
    | none => none)

/-- `StatisticalAnalyzer._calculate_correlations` (analyzer.py lines 62-91).
Python's `list.sort` is a stable sort; `insertionSort` with the same key
order is stable with identical results.  The final list keeps the top 10. -/
def calculateCorrelations (corrM : String → String → Option ℚ)
    (numericCols dfCols : List String) : List CorrelationRecord :=
  let m := meaningfulCols numericCols dfCols
  if m.length < 2 then []
  else ((corrRecords corrM m).insertionSort corrGe).take 10

/-- `np.mean` of the value series. -/
def meanOf (ys : List ℚ) : ℚ := ys.sum / (ys.length : ℚ)

/-- Ordinary-least-squares slope of `ys` against the index series `0..n-1`,
as computed by `scipy.stats.linregress` (analyzer.py line 195). -/
def slopeOf (ys : List ℚ) : ℚ :=
  let n := ys.length
  let xbar : ℚ := ((n : ℚ) - 1) / 2
  let ybar := meanOf ys
  let sxy := (ys.enum.map (fun p => ((p.1 : ℚ) - xbar) * (p.2 - ybar))).sum
  let sxx := ((List.range n).map (fun i => ((i : ℚ) - xbar) ^ 2)).sum
  sxy / sxx

/-- OLS intercept, `ybar - slope * xbar`. -/
def interceptOf (ys : List ℚ) : ℚ :=
  meanOf ys - slopeOf ys * (((ys.length : ℚ) - 1) / 2)

/-- One point of the forecast series (analyzer.py lines 216-220).  `date` is
a rational day offset; the source's 10-character date formatting is not
modelled. -/
structure ForecastPoint where
  date : ℚ
  value : ℚ
  is_forecast : Bool
deriving DecidableEq

instance : Inhabited ForecastPoint := ⟨⟨0, 0, false⟩⟩

/-- The forecast result fields the claims are about (analyzer.py lines
232-240; metric/date-column/confidence strings and the historical series are
pass-throughs not modelled). -/
structure ForecastResult where
  trend : String
  slope : ℚ
  forecast_data : List ForecastPoint
deriving DecidableEq

/-- The computational core of `StatisticalAnalyzer.forecast` (analyzer.py
lines 188-220), given the date-sorted value series `ys`, the horizon
`monthsAhead` (source default 6) and the last historical date (a day
offset).  Fewer than 3 rows produce no forecast.  Trend: `Stable` when
`|slope| < 0.01 * mean(y)`, else by slope sign.  Point `i` (1-based) is
dated 30 days after the previous one and carries
`max(0, round(slope * nextX + intercept, 2))`. -/
def forecast (ys : List ℚ) (monthsAhead : ℕ) (lastDate : ℚ) : Option ForecastResult :=
  if ys.length < 3 then none
  else
    let n := ys.length
    let s := slopeOf ys
    let b := interceptOf ys
    let trend := if |s| < 1/100 * meanOf ys then "Stable"
      else if 0 < s then "Upward" else "Downward"
    let pts := (List.range monthsAhead).map (fun j =>
      let nextX : ℚ := ((n - 1 + (j + 1) : ℕ) : ℚ)
      { date := lastDate + 30 * ((j + 1 : ℕ) : ℚ)
        value := max 0 (roundTo 2 (s * nextX + b))
        is_forecast := true })
    some { trend := trend, slope := roundTo 2 s, forecast_data := pts }

/-- The forecast point for month `j+1` (0-based `j`), as built inside the
loop of `forecast`. -/
def forecastPoint (ys : List ℚ) (d : ℚ) (j : ℕ) : ForecastPoint :=
  ⟨d + 30 * ((j + 1 : ℕ) : ℚ),
   max 0 (roundTo 2 (slopeOf ys * ((ys.length - 1 + (j + 1) : ℕ) : ℚ) +
     interceptOf ys)), true⟩

/-- The trend label computed inside `forecast`. -/
def trendOf (ys : List ℚ) : String :=
  if |slopeOf ys| < 1/100 * meanOf ys then "Stable"
  else if 0 < slopeOf ys then "Upward" else "Downward"

/-! ## Chart math engine: heatmap (main.py) -/

/-- One flattened heatmap cell (main.py lines 83-87). -/
structure HeatCell where
  x : String
  y : String
  value : ℚ
deriving DecidableEq

/-- `df.select_dtypes(include=['number']).columns[:6]` (main.py lines 69-72). -/
def heatmapNumericNames (df : Df) : List String := (numericColumnsRaw df).take 6

/-- The heatmap branch of `calculate_chart_data` (main.py lines 67-88),
with the Pearson matrix supplied by the oracle `corrM` (`none` = NaN).
The spec-provided x/y column hints of the request are ignored by the
source, so they are not parameters here.  The matrix is rounded to
2 decimals (NaN stays NaN), and NaN cells map to value 0. -/
def heatmap (df : Df) (corrM : String → String → Option ℚ) : List HeatCell :=
  let cols := heatmapNumericNames df
  if cols.length < 2 then []
  else cols.flatMap (fun x => cols.map (fun y =>
    { x := x, y := y,
      value := match corrM x y with
        | none => 0
        | some v => roundTo 2 v }))

/-- Values `pandas` actually observes in a numeric column (non-null cells). -/
def observedValues (cells : List PyVal) : List ℚ :=
  cells.filterMap (fun v => match v with | .vNum q => some q | _ => none)

/-- Centered sum of squares of the observed values of a column (the
`ssqdm` accumulator of pandas `nancorr`). -/
def ssqdm (cells : List PyVal) : ℚ :=
  let o := observedValues cells
  (o.map (fun v => (v - meanOf o) ^ 2)).sum

/-- Diagonal behaviour of `DataFrame.corr(method='pearson')`
(pandas `_libs/algos.pyx::nancorr`): the matrix entry for a column against
itself is `cov/divisor` with `divisor = (nobs-1)*sqrt(ssqdm*ssqdm)`, hence
exactly 1 when the centered sum of squares is nonzero, and NaN when it is
zero (constant columns, columns with fewer than 2 observations).  A
correlation oracle is pandas-consistent on the diagonal when it satisfies
this rule for every numeric column. -/
def PandasDiagRule (df : Df) (corrM : String → String → Option ℚ) : Prop :=
  ∀ c ∈ df, c.dtype = .number →
    corrM c.name c.name = (if ssqdm c.cells = 0 then none else some 1)

/-! ## SOPEngine (sop_service.py) -/

/-- `ChartRecommendation` (domain_models.py lines 4-10). -/
structure ChartRecommendation where
  title : String
  chart_type : String
  x_axis_col : String
  y_axis_col : String
  group_col : Option String
  reasoning : String
deriving DecidableEq

/-- `DataBlueprint` (domain_models.py lines 12-24). -/
structure DataBlueprint where
  domain : String
  primary_grain : String
  time_grain : Option String
  numeric_columns : List String
  categorical_columns : List String
  recommended_charts : List ChartRecommendation
  summary_insight : String
deriving DecidableEq

/-- `SOPEngine._get_fallback_blueprint` (sop_service.py lines 54-63); the
`columns` argument of the source is ignored there. -/
def fallbackBlueprint : DataBlueprint :=
  { domain := "General"
    primary_grain := "Unknown"
    time_grain := none
    numeric_columns := []
    categorical_columns := []
    recommended_charts := []
    summary_insight := "AI analysis failed. Using raw data view." }

/-- Python `str.replace(pat, rep)` on character lists, replacing every
non-overlapping occurrence left to right.  The fuel is the input length
plus one; every step consumes at least one character when `pat` is
nonempty, so the fuel never runs out at the call sites. -/
def replaceAux (pat rep : List Char) : ℕ → List Char → List Char
  | _, [] => []
  | 0, s => s
  | fuel + 1, c :: cs =>
    if pat.isPrefixOf (c :: cs) ∧ pat ≠ [] then
      rep ++ replaceAux pat rep fuel ((c :: cs).drop pat.length)
    else c :: replaceAux pat rep fuel cs

/-- Python `str.replace` on strings. -/
def pyReplace (s pat rep : String) : String :=
  ⟨replaceAux pat.data rep.data (s.data.length + 1) s.data⟩

/-- The fence stripping of sop_service.py line 45:
`raw.replace('```json', '').replace('```', '').strip()`. -/
def stripFences (raw : String) : String :=
  String.mk (pyStripL (pyReplace (pyReplace raw "```json" "") "```" "").data)

/-- `SOPEngine.analyze_dataset_structure`, parse-and-validate stage
(sop_service.py lines 42-52).  `parse` abstracts `json.loads` composed with
pydantic validation `DataBlueprint(**data)`: it returns the validated
blueprint, or `none` when parsing or validation raises.  The source wraps
this stage in `try/except` and substitutes the fallback blueprint on any
failure, so the composite never raises. -/
def analyzeDatasetStructure (parse : String → Option DataBlueprint) (raw : String) :
    DataBlueprint :=
  match parse (stripFences raw) with
  | some bp => bp
  | none => fallbackBlueprint

/-! ## Concrete fixtures for counterexamples and witnesses -/

/-- A frame with a single text column named "date" (e.g. a CSV date column
stored as strings): its dtype is object. -/
def dateTextDf : Df := [⟨"date", Dtype.object, []⟩]

/-- A frame whose classification is collision-free. -/
def salaryDeptDf : Df := [⟨"Salary", Dtype.number, []⟩, ⟨"Dept", Dtype.object, []⟩]

/-- Two numeric columns, the first constant: pandas `corr` yields NaN on
the whole row/column of a zero-variance column, including its diagonal. -/
def constColDf : Df :=
  [⟨"a", Dtype.number, [.vNum 5, .vNum 5]⟩, ⟨"b", Dtype.number, [.vNum 1, .vNum 3]⟩]

/-- A pandas-consistent correlation oracle for `constColDf`: every pair
involving the constant column "a" is NaN; "b" against itself is 1. -/
def constColCorr : String → String → Option ℚ :=
  fun x y => if x = "a" ∨ y = "a" then none else some 1

/-- A frame with a text column and a numeric column whose first row is
entirely null. -/
def emptyRowDf : Df :=
  [⟨"name", Dtype.object, [.vNull, .vStr "a"]⟩, ⟨"val", Dtype.number, [.vNull, .vNum 1]⟩]

/-- A frame with no text columns and an entirely-null first row. -/
def numericOnlyDf : Df := [⟨"x", Dtype.number, [.vNull, .vNum 7]⟩]

/-- A single text column holding one null cell. -/
def nullTextDf : Df := [⟨"t", Dtype.object, [.vNull]⟩]

/-- A non-fallback blueprint used to exercise the parse-success path. -/
def salesBlueprint : DataBlueprint :=
  { domain := "Sales"
    primary_grain := "OrderID"
    time_grain := none
    numeric_columns := []
    categorical_columns := []
    recommended_charts := []
    summary_insight := "ok" }

/-- A parse oracle that accepts exactly the payload "x". -/
def parseOnlyX : String → Option DataBlueprint :=
  fun s => if s = "x" then some salesBlueprint else none

/-- A correlation-matrix oracle defined on one pair of meaningful columns. -/
def alphaBetaCorr : String → String → Option ℚ :=
  fun x y => if x = "alpha" ∧ y = "beta" then some (1/2) else none

/-- Numeric columns for the correlation witness: "theid" contains the
identifier substring "id" and must never reach the output. -/
def alphaBetaCols : List String := ["alpha", "beta", "theid"]

/-! ## Helper lemmas: Python numeric primitives -/

theorem pyInt_intCast (n : ℤ) : pyInt (n : ℚ) = n := by
  unfold pyInt
  split
  · exact Int.ceil_intCast n
  · exact Int.floor_intCast n

theorem pyRound_intCast (n : ℤ) : pyRound (n : ℚ) = n := by
  unfold pyRound
  rw [Int.floor_intCast]
  norm_num

theorem pyRound_nonneg {q : ℚ} (h : 0 ≤ q) : 0 ≤ pyRound q := by
  have h0 : (0 : ℤ) ≤ ⌊q⌋ := Int.floor_nonneg.mpr h
  unfold pyRound
  split_ifs <;> omega

theorem pyRound_nonpos {q : ℚ} (h : q ≤ 0) : pyRound q ≤ 0 := by
  rcases eq_or_lt_of_le h with heq | hlt
  · subst heq
    have h0 := pyRound_intCast 0
    simp only [Int.cast_zero] at h0
    exact le_of_eq h0
  · have h0 : ⌊q⌋ < 0 := Int.floor_lt.mpr (by exact_mod_cast hlt)
    unfold pyRound
    split_ifs <;> omega

theorem roundTo_intCast (k : ℕ) (n : ℤ) : roundTo k (n : ℚ) = n := by
  unfold roundTo
  have h : (n : ℚ) * 10 ^ k = ((n * 10 ^ k : ℤ) : ℚ) := by push_cast; ring
  rw [h, pyRound_intCast]
  push_cast
  field_simp

theorem roundTo_nonneg {q : ℚ} (k : ℕ) (h : 0 ≤ q) : 0 ≤ roundTo k q := by
  unfold roundTo
  have h1 : (0 : ℤ) ≤ pyRound (q * 10 ^ k) :=
    pyRound_nonneg (by positivity)
  have h2 : (0 : ℚ) ≤ (pyRound (q * 10 ^ k) : ℚ) := by exact_mod_cast h1
  positivity

theorem roundTo_nonpos {q : ℚ} (k : ℕ) (h : q ≤ 0) : roundTo k q ≤ 0 := by
  unfold roundTo
  have h1 : pyRound (q * 10 ^ k) ≤ 0 :=
    pyRound_nonpos (by
      have : (0 : ℚ) < 10 ^ k := by positivity
      nlinarith)
  have h2 : ((pyRound (q * 10 ^ k) : ℚ)) ≤ 0 := by exact_mod_cast h1
  have h3 : (0 : ℚ) < 10 ^ k := by positivity
  exact div_nonpos_of_nonpos_of_nonneg h2 (le_of_lt h3)

theorem roundTo_zero (k : ℕ) : roundTo k (0 : ℚ) = 0 := by
  have := roundTo_intCast k 0
  simpa using this

theorem roundTo_max_comm (k : ℕ) (p : ℚ) :
    roundTo k (max 0 p) = max 0 (roundTo k p) := by
  rcases le_total p 0 with h | h
  · rw [max_eq_left h, roundTo_zero, max_eq_left (roundTo_nonpos k h)]
  · rw [max_eq_right h, max_eq_right (roundTo_nonneg k h)]

/-! ## Helper lemmas: characters and strings -/

theorem toNat_charLower (c : Char) :
    (charLower c).toNat =
      if 65 ≤ c.toNat ∧ c.toNat ≤ 90 then c.toNat + 32 else c.toNat := by
  unfold charLower
  split
  · rfl
  · rfl

theorem charLower_eq_self {c : Char} (h : ¬(65 ≤ c.toNat ∧ c.toNat ≤ 90)) :
    charLower c = c := by
  unfold charLower
  rw [dif_neg h]

theorem pySpace_charLower (c : Char) : pySpace (charLower c) = pySpace c := by
  simp only [pySpace, toNat_charLower]
  split_ifs with h
  · apply decide_eq_decide.mpr
    omega
  · rfl

theorem isWord_charLower (c : Char) : isWordChar (charLower c) = isWordChar c := by
  simp only [isWordChar, toNat_charLower]
  split_ifs with h
  · apply decide_eq_decide.mpr
    omega
  · rfl

theorem charLower_idem (c : Char) : charLower (charLower c) = charLower c := by
  by_cases h : 65 ≤ c.toNat ∧ c.toNat ≤ 90
  · have h2 : ¬(65 ≤ (charLower c).toNat ∧ (charLower c).toNat ≤ 90) := by
      rw [toNat_charLower, if_pos h]
      omega
    exact charLower_eq_self h2
  · rw [charLower_eq_self h, charLower_eq_self h]

theorem dropWhile_eq_self_of {p : Char → Bool} {l : List Char}
    (h : ∀ c ∈ l, p c = false) : l.dropWhile p = l := by
  cases l with
  | nil => rfl
  | cons a t => simp [List.dropWhile_cons, h a (by simp)]

theorem pyStripL_eq_self {l : List Char} (h : ∀ c ∈ l, pySpace c = false) :
    pyStripL l = l := by
  unfold pyStripL
  rw [dropWhile_eq_self_of h, dropWhile_eq_self_of (by
    intro c hc
    exact h c (by simpa using hc)), List.reverse_reverse]

theorem mem_collapseWsGo {l : List Char} {b : Bool} {c : Char}
    (hc : c ∈ collapseWsGo b l) : c = '_' ∨ (c ∈ l ∧ pySpace c = false) := by
  induction l generalizing b with
  | nil => simp [collapseWsGo] at hc
  | cons a t ih =>
    rcases hs : pySpace a with hf | ht
    · rw [collapseWsGo, hs] at hc
      simp only [Bool.false_eq_true, if_false] at hc
      rcases List.mem_cons.mp hc with rfl | hmem
      · right
        exact ⟨List.mem_cons_self _ _, hs⟩
      · rcases ih hmem with h1 | ⟨h2, h3⟩
        · left; exact h1
        · right; exact ⟨List.mem_cons_of_mem _ h2, h3⟩
    · rw [collapseWsGo, hs] at hc
      simp only [if_true] at hc
      cases b with
      | true =>
        rcases ih hc with h1 | ⟨h2, h3⟩
        · left; exact h1
        · right; exact ⟨List.mem_cons_of_mem _ h2, h3⟩
      | false =>
        rcases List.mem_cons.mp hc with rfl | hmem
        · left; rfl
        · rcases ih hmem with h1 | ⟨h2, h3⟩
          · left; exact h1
          · right; exact ⟨List.mem_cons_of_mem _ h2, h3⟩

theorem collapseWsGo_eq_self {l : List Char} (b : Bool)
    (h : ∀ c ∈ l, pySpace c = false) : collapseWsGo b l = l := by
  induction l generalizing b with
  | nil => rfl
  | cons a t ih =>
    rw [collapseWsGo, h a (List.mem_cons_self _ _)]
    simp only [Bool.false_eq_true, if_false]
    rw [ih false (fun c hc => h c (List.mem_cons_of_mem _ hc))]

theorem map_eq_self_of {f : Char → Char} {l : List Char}
    (h : ∀ c ∈ l, f c = c) : l.map f = l := by
  rw [List.map_congr_left h]
  simp

theorem lowerChars_of_ne {c : Char} (h : ¬ c.toNat = 304) :
    lowerChars c = [charLower c] := by
  unfold lowerChars
  rw [if_neg h]

theorem lowerAll_cons (a : Char) (t : List Char) :
    lowerAll (a :: t) = lowerChars a ++ lowerAll t := rfl

/-- On an all-ASCII character list, string-level lowercasing is the simple
character-wise map (no character expands). -/
theorem lowerAll_ascii {l : List Char} (h : ∀ c ∈ l, c.toNat < 128) :
    lowerAll l = l.map charLower := by
  induction l with
  | nil => rfl
  | cons a t ih =>
    have ha : a.toNat < 128 := h a (List.mem_cons_self _ _)
    rw [lowerAll_cons, lowerChars_of_ne (by omega),
      ih (fun c hc => h c (List.mem_cons_of_mem _ hc))]
    rfl

theorem mem_pyStripL {l : List Char} {c : Char} (hc : c ∈ pyStripL l) :
    c ∈ l := by
  unfold pyStripL at hc
  rw [List.mem_reverse] at hc
  have h1 : c ∈ (l.dropWhile pySpace).reverse :=
    (List.dropWhile_sublist _).subset hc
  rw [List.mem_reverse] at h1
  exact (List.dropWhile_sublist _).subset h1

/-- On an all-ASCII header, every character of the standardized form is an
ASCII word character, is not whitespace, and is fixed by lowercasing. -/
theorem standardizeHeader_chars_ascii {s : String}
    (hA : ∀ c ∈ s.data, c.toNat < 128) :
    ∀ c ∈ (standardizeHeader s).data,
      isWordChar c = true ∧ pySpace c = false ∧ charLower c = c ∧
        c.toNat < 128 := by
  have hmid : ∀ c₀ ∈ collapseWsGo false ((pyStripL s.data).filter
      (fun c => isWordChar c || pySpace c)), c₀.toNat < 128 := by
    intro c₀ hc₀
    rcases mem_collapseWsGo hc₀ with rfl | ⟨hmem, _⟩
    · decide
    · exact hA c₀ (mem_pyStripL (List.mem_filter.mp hmem).1)
  intro c hc
  have hdata : (standardizeHeader s).data =
      lowerAll (collapseWsGo false ((pyStripL s.data).filter
        (fun c => isWordChar c || pySpace c))) := rfl
  rw [hdata, lowerAll_ascii hmid] at hc
  rcases List.mem_map.mp hc with ⟨c₀, hc₀, rfl⟩
  have h128 : c₀.toNat < 128 := hmid c₀ hc₀
  have h128l : (charLower c₀).toNat < 128 := by
    rw [toNat_charLower]
    split_ifs with h <;> omega
  rcases mem_collapseWsGo hc₀ with rfl | ⟨hmem, hns⟩
  · exact ⟨by decide, by decide, by decide, by decide⟩
  · have hor : (isWordChar c₀ || pySpace c₀) = true := (List.mem_filter.mp hmem).2
    have hw : isWordChar c₀ = true := by
      rcases Bool.or_eq_true_iff.mp hor with h | h
      · exact h
      · rw [h] at hns; cases hns
    exact ⟨by rw [isWord_charLower]; exact hw,
      by rw [pySpace_charLower]; exact hns, charLower_idem c₀, h128l⟩

/-- Claim C6 counterexample: header standardization is NOT idempotent over
all headers.  On the single-character header U+0130 the first pass keeps
the character (it is a Unicode word character, so the regex `[^\w\s]`
deletion spares it) and the final `str.lower` expands it to "i" followed
by U+0307 COMBINING DOT ABOVE; the second pass deletes the combining mark,
which is neither a word character nor whitespace, leaving "i".
Standardizing an already-standardized header thus changes it. -/
theorem C6_counterexample :
    standardizeHeader (String.mk [turkishDottedI]) =
      String.mk ['i', combiningDotAbove] ∧
    standardizeHeader (standardizeHeader (String.mk [turkishDottedI])) =
      "i" ∧
    standardizeHeader (standardizeHeader (String.mk [turkishDottedI])) ≠
      standardizeHeader (String.mk [turkishDottedI]) := by
  refine ⟨by decide, by decide, by decide⟩

/-- Claim C6, amended: header standardization is idempotent on every
all-ASCII header (each character's standardized residue is an ASCII word
character fixed by a second pass).  Over full Unicode idempotence fails,
because `str.lower` can expand a kept word character into a sequence
containing a non-word combining mark. -/
theorem C6_standardize_amended (h : String)
    (hA : ∀ c ∈ h.data, c.toNat < 128) :
    standardizeHeader (standardizeHeader h) = standardizeHeader h := by
  have hch := standardizeHeader_chars_ascii hA
  set t := standardizeHeader h with ht
  have hnospace : ∀ c ∈ t.data, pySpace c = false := fun c hc => (hch c hc).2.1
  have hword : ∀ c ∈ t.data, isWordChar c = true := fun c hc => (hch c hc).1
  have hlower : ∀ c ∈ t.data, charLower c = c := fun c hc => (hch c hc).2.2.1
  have hasc : ∀ c ∈ t.data, c.toNat < 128 := fun c hc => (hch c hc).2.2.2
  show String.mk (lowerAll (collapseWsGo false ((pyStripL t.data).filter
    (fun c => isWordChar c || pySpace c)))) = t
  rw [pyStripL_eq_self hnospace]
  rw [List.filter_eq_self.mpr (fun c hc => by rw [hword c hc]; rfl)]
  rw [collapseWsGo_eq_self false hnospace]
  rw [lowerAll_ascii hasc]
  rw [map_eq_self_of hlower]

/-- Concrete instantiation of the amended C6 theorem at an ASCII header
with surrounding whitespace, an inner whitespace run, uppercase letters
and punctuation. -/
theorem C6_standardize_amended_witness :
    (∀ c ∈ ("  Net  Salary (USD)! ").data, c.toNat < 128) ∧
    standardizeHeader (standardizeHeader "  Net  Salary (USD)! ") =
      standardizeHeader "  Net  Salary (USD)! " :=
  ⟨by decide, C6_standardize_amended "  Net  Salary (USD)! " (by decide)⟩

/-! ## Claim C1: Excel serial-date conversion -/

/-- Claim C1 counterexample: the claim states that every in-range numeric
value `v` converts to "1899-12-30 plus v days".  At the in-range fractional
serial `v = 20000.5` the code (`_convert_excel_date`) adds `int(v) = 20000`
days, not `v` days, so the converted date differs from the claimed one by
half a day. -/
theorem C1_counterexample :
    convertExcelDate (.vNum (40001/2 : ℚ)) = .vDate ((20000 : ℤ) : ℚ) ∧
    specConvertExcelDate (.vNum (40001/2 : ℚ)) = .vDate (40001/2 : ℚ) ∧
    convertExcelDate (.vNum (40001/2 : ℚ)) ≠ specConvertExcelDate (.vNum (40001/2 : ℚ)) := by
  have hin : (20000 : ℚ) < 40001/2 ∧ (40001/2 : ℚ) < 100000 := by norm_num
  have hfl : ⌊(40001/2 : ℚ)⌋ = 20000 := by
    rw [Int.floor_eq_iff]
    norm_num
  have hpi : pyInt (40001/2 : ℚ) = 20000 := by
    unfold pyInt
    rw [if_neg (by norm_num), hfl]
  refine ⟨?_, ?_, ?_⟩
  · show (if (20000 : ℚ) < 40001/2 ∧ (40001/2 : ℚ) < 100000 then
      PyVal.vDate ((pyInt (40001/2 : ℚ) : ℤ) : ℚ) else .vNum (40001/2 : ℚ)) = _
    rw [if_pos hin, hpi]
  · show (if (20000 : ℚ) < 40001/2 ∧ (40001/2 : ℚ) < 100000 then
      PyVal.vDate (40001/2 : ℚ) else .vNum (40001/2 : ℚ)) = _
    rw [if_pos hin]
  · intro hcontra
    rw [show convertExcelDate (.vNum (40001/2 : ℚ)) =
      .vDate ((20000 : ℤ) : ℚ) from by
        show (if (20000 : ℚ) < 40001/2 ∧ (40001/2 : ℚ) < 100000 then
          PyVal.vDate ((pyInt (40001/2 : ℚ) : ℤ) : ℚ) else .vNum (40001/2 : ℚ)) = _
        rw [if_pos hin, hpi]] at hcontra
    rw [show specConvertExcelDate (.vNum (40001/2 : ℚ)) =
      .vDate (40001/2 : ℚ) from by
        show (if (20000 : ℚ) < 40001/2 ∧ (40001/2 : ℚ) < 100000 then
          PyVal.vDate (40001/2 : ℚ) else .vNum (40001/2 : ℚ)) = _
        rw [if_pos hin]] at hcontra
    have : ((20000 : ℤ) : ℚ) = 40001/2 := by injection hcontra
    norm_num at this

/-- Claim C1 (amended): in `_convert_excel_date`, a numeric `v` is converted
iff `20000 < v < 100000` (exclusive bounds), and the converted date is
1899-12-30 plus `int(v)` days (the fractional part of the serial is
truncated); for integer serials this agrees with "plus v days".  Null,
string and date values, and out-of-range numerics, pass through unchanged.
In the analyzer's `_convert_date` the same serial rule applies, but an
out-of-range numeric is NOT returned unchanged: it falls back to the
current time. -/
theorem C1_excel_serial_amended :
    (∀ q : ℚ, 20000 < q → q < 100000 →
      convertExcelDate (.vNum q) = .vDate ((pyInt q : ℤ) : ℚ)) ∧
    (∀ q : ℚ, ¬(20000 < q ∧ q < 100000) → convertExcelDate (.vNum q) = .vNum q) ∧
    (∀ n : ℤ, 20000 < n → n < 100000 →
      convertExcelDate (.vNum (n : ℚ)) = .vDate ((n : ℤ) : ℚ)) ∧
    (∀ s, convertExcelDate (.vStr s) = .vStr s) ∧
    convertExcelDate .vNull = .vNull ∧
    (∀ d : ℚ, convertExcelDate (.vDate d) = .vDate d) ∧
    (∀ (now : ℚ) (parseStr : String → Option ℚ) (q : ℚ), 20000 < q → q < 100000 →
      convertDate now parseStr (.vNum q) = ((pyInt q : ℤ) : ℚ)) ∧
    (∀ (now : ℚ) (parseStr : String → Option ℚ) (q : ℚ), ¬(20000 < q ∧ q < 100000) →
      convertDate now parseStr (.vNum q) = now) := by
  refine ⟨?_, ?_, ?_, ?_, rfl, fun _ => rfl, ?_, ?_⟩
  · intro q h1 h2
    show (if 20000 < q ∧ q < 100000 then
      PyVal.vDate ((pyInt q : ℤ) : ℚ) else .vNum q) = _
    rw [if_pos ⟨h1, h2⟩]
  · intro q h
    show (if 20000 < q ∧ q < 100000 then
      PyVal.vDate ((pyInt q : ℤ) : ℚ) else .vNum q) = _
    rw [if_neg h]
  · intro n h1 h2
    have h1q : (20000 : ℚ) < (n : ℚ) := by exact_mod_cast h1
    have h2q : ((n : ℚ)) < 100000 := by exact_mod_cast h2
    show (if (20000 : ℚ) < (n : ℚ) ∧ ((n : ℚ)) < 100000 then
      PyVal.vDate ((pyInt (n : ℚ) : ℤ) : ℚ) else .vNum (n : ℚ)) = _
    rw [if_pos ⟨h1q, h2q⟩, pyInt_intCast]
  · intro s; rfl
  · intro now parseStr q h1 h2
    show (if 20000 < q ∧ q < 100000 then ((pyInt q : ℤ) : ℚ) else now) = _
    rw [if_pos ⟨h1, h2⟩]
  · intro now parseStr q h
    show (if 20000 < q ∧ q < 100000 then ((pyInt q : ℤ) : ℚ) else now) = _
    rw [if_neg h]

/-- Witness for C1 (amended): the serial boundary — 20000 and 100000 are not
converted, 20001 and 99999 are, with integer serials landing exactly on
epoch + v days; an out-of-range numeric in `_convert_date` becomes "now". -/
theorem C1_excel_serial_amended_witness :
    ((20000 : ℤ) < 20001 ∧ (20001 : ℤ) < 100000) ∧
    convertExcelDate (.vNum ((20001 : ℤ) : ℚ)) = .vDate ((20001 : ℤ) : ℚ) ∧
    convertExcelDate (.vNum ((99999 : ℤ) : ℚ)) = .vDate ((99999 : ℤ) : ℚ) ∧
    convertExcelDate (.vNum (20000 : ℚ)) = .vNum (20000 : ℚ) ∧
    convertExcelDate (.vNum (100000 : ℚ)) = .vNum (100000 : ℚ) ∧
    convertDate 0 (fun _ => none) (.vNum (100 : ℚ)) = 0 := by
  obtain ⟨_, h2, h3, _, _, _, _, h8⟩ := C1_excel_serial_amended
  refine ⟨by norm_num, ?_, ?_, ?_, ?_, ?_⟩
  · exact h3 20001 (by norm_num) (by norm_num)
  · exact h3 99999 (by norm_num) (by norm_num)
  · exact h2 20000 (by norm_num)
  · exact h2 100000 (by norm_num)
  · exact h8 0 (fun _ => none) 100 (by norm_num)

/-! ## Claim C2: correlation-insight template selection -/

/-- Claim C2 counterexample: at `col1 = "a"`, `col2 = "b"`, `r = 0.719`
(strong bucket, 3 templates) the code computes
`(1 + 1 + int(71.9)) mod 3 = 73 mod 3 = 1`, while the claim's formula gives
`(1 + 1 + round(71.9)) mod 3 = 74 mod 3 = 2`; the produced insight string is
not the one the claimed formula selects. -/
theorem C2_counterexample :
    generateInsight "a" "b" (719/1000 : ℚ) =
      "a is a significant indicator of b (r=0.72)." ∧
    specInsight "a" "b" (719/1000 : ℚ) =
      "Data correlation patterns link a closely with b (r=0.72)." ∧
    generateInsight "a" "b" (719/1000 : ℚ) ≠ specInsight "a" "b" (719/1000 : ℚ) := by
  have habs : |(719/1000 : ℚ)| > 7/10 := by
    rw [abs_of_pos (by norm_num)]
    norm_num
  have hm : (719/1000 : ℚ) * 100 = 719/10 := by norm_num
  have hfl : ⌊(719/10 : ℚ)⌋ = 71 := by
    rw [Int.floor_eq_iff]
    norm_num
  have hpi : pyInt ((719/1000 : ℚ) * 100) = 71 := by
    rw [hm]
    unfold pyInt
    rw [if_neg (by norm_num), hfl]
  have hpr : pyRound ((719/1000 : ℚ) * 100) = 72 := by
    rw [hm]
    unfold pyRound
    rw [hfl]
    rw [if_neg (by push_cast; norm_num), if_pos (by push_cast; norm_num)]
    norm_num
  have hf : fmt2 (719/1000 : ℚ) = "0.72" := by
    unfold fmt2
    rw [hpr]
    decide
  have hg : generateInsight "a" "b" (719/1000 : ℚ) =
      "a is a significant indicator of b (r=0.72)." := by
    unfold generateInsight templateIndexInt templatesFor
    rw [if_pos habs, hpi, hf]
    rw [if_pos (by norm_num : (0:ℚ) < 719/1000)]
    decide
  have hs : specInsight "a" "b" (719/1000 : ℚ) =
      "Data correlation patterns link a closely with b (r=0.72)." := by
    unfold specInsight templatesFor
    rw [if_pos habs, hpr, hf]
    rw [if_pos (by norm_num : (0:ℚ) < 719/1000)]
    decide
  refine ⟨hg, hs, ?_⟩
  rw [hg, hs]
  decide

/-- Claim C2 (amended): template choice is deterministic, but the in-bucket
index is `(len(col1) + len(col2) + int(r*100)) mod templateCount` with
Python `int` (truncation toward zero), not `round`; the same column pair
with the same correlation value always yields the same insight string.  In
the strong bucket (`|r| > 0.7`) the count is 3; in the moderate bucket the
single template is always chosen. -/
theorem C2_template_selection_amended :
    (∀ (c1 c2 : String) (r : ℚ), generateInsight c1 c2 r = amendedSpecInsight c1 c2 r) ∧
    (∀ (c1 c2 : String) (r : ℚ), 7/10 < |r| →
      generateInsight c1 c2 r =
        (strongTemplates.getD
          ((((c1.length : ℤ) + (c2.length : ℤ) + pyInt (r * 100)) % 3).toNat)
          (fun _ _ _ _ => "")) c1 c2 (fmt2 r)
          (if 0 < r then "positive" else "negative")) ∧
    (∀ (c1 c2 : String) (r : ℚ), ¬(7/10 < |r|) → ¬(|r| < 3/10) →
      generateInsight c1 c2 r =
        "Moderate " ++ (if 0 < r then "positive" else "negative") ++
          " correlation between " ++ c1 ++ " and " ++ c2 ++
          " (r=" ++ fmt2 r ++ ").") := by
  refine ⟨fun c1 c2 r => rfl, ?_, ?_⟩
  · intro c1 c2 r h
    unfold generateInsight templateIndexInt templatesFor
    rw [if_pos (by exact h)]
    rfl
  · intro c1 c2 r h1 h2
    unfold generateInsight templateIndexInt templatesFor
    rw [if_neg h1, if_neg h2]
    show (moderateTemplates.getD
      ((((c1.length : ℤ) + (c2.length : ℤ) + pyInt (r * 100)) %
        ((moderateTemplates.length : ℕ) : ℤ)).toNat)
      (fun _ _ _ _ => "")) c1 c2 (fmt2 r)
      (if 0 < r then "positive" else "negative") = _
    have hone : (((c1.length : ℤ) + (c2.length : ℤ) + pyInt (r * 100)) %
        ((moderateTemplates.length : ℕ) : ℤ)).toNat = 0 := by
      simp [moderateTemplates]
    rw [hone]
    rfl

/-- Witness for C2 (amended): a concrete strong-bucket instantiation. -/
theorem C2_template_selection_amended_witness :
    (7/10 < |(719/1000 : ℚ)|) ∧
    generateInsight "a" "b" (719/1000 : ℚ) =
      (strongTemplates.getD
        ((((("a" : String).length : ℤ) + (("b" : String).length : ℤ) +
          pyInt ((719/1000 : ℚ) * 100)) % 3).toNat)
        (fun _ _ _ _ => "")) "a" "b" (fmt2 (719/1000 : ℚ))
        (if (0 : ℚ) < 719/1000 then "positive" else "negative") := by
  have h : (7/10 : ℚ) < |(719/1000 : ℚ)| := by
    rw [abs_of_pos (by norm_num)]
    norm_num
  exact ⟨h, C2_template_selection_amended.2.1 "a" "b" (719/1000 : ℚ) h⟩

/-! ## Claim C8: recommendation-collaborator fallback -/

theorem replaceAux_nil (pat rep : List Char) (fuel : ℕ) :
    replaceAux pat rep fuel [] = [] := by
  cases fuel <;> rfl

theorem replaceAux_zero (pat rep : List Char) (l : List Char) :
    replaceAux pat rep 0 l = l := by
  cases l <;> rfl

theorem isPrefixOf_cons_of_ne {p₀ c : Char} {pr cs : List Char} (h : c ≠ p₀) :
    (p₀ :: pr).isPrefixOf (c :: cs) = false := by
  simp [List.isPrefixOf]
  intro hc
  exact absurd hc.symm h

theorem isPrefixOf_append_self (l t : List Char) : l.isPrefixOf (l ++ t) = true := by
  induction l with
  | nil => simp [List.isPrefixOf]
  | cons a as ih => simp [List.isPrefixOf, ih]

/-- A replacement whose pattern head occurs nowhere in the input is the
identity. -/
theorem replaceAux_no_head {p₀ : Char} (pr rep : List Char) :
    ∀ (l : List Char) (fuel : ℕ), (∀ c ∈ l, c ≠ p₀) →
      replaceAux (p₀ :: pr) rep fuel l = l := by
  intro l
  induction l with
  | nil => intro fuel _; exact replaceAux_nil _ _ _
  | cons c cs ih =>
    intro fuel h
    cases fuel with
    | zero => exact replaceAux_zero _ _ _
    | succ f =>
      have hc : c ≠ p₀ := h c (List.mem_cons_self _ _)
      rw [replaceAux, if_neg]
      · rw [ih f (fun d hd => h d (List.mem_cons_of_mem _ hd))]
      · rw [isPrefixOf_cons_of_ne hc]
        simp

/-- A clean (pattern-head-free) prefix passes through a replacement. -/
theorem replaceAux_append_clean {p₀ : Char} (pr rep : List Char) :
    ∀ (s : List Char) (t : List Char) (fuel : ℕ), s.length ≤ fuel →
      (∀ c ∈ s, c ≠ p₀) →
      replaceAux (p₀ :: pr) rep fuel (s ++ t) =
        s ++ replaceAux (p₀ :: pr) rep (fuel - s.length) t := by
  intro s
  induction s with
  | nil => intro t fuel _ _; simp
  | cons c cs ih =>
    intro t fuel hfuel h
    cases fuel with
    | zero => simp at hfuel
    | succ f =>
      have hc : c ≠ p₀ := h c (List.mem_cons_self _ _)
      rw [List.cons_append, replaceAux, if_neg]
      · rw [ih t f (by simpa using hfuel) (fun d hd => h d (List.mem_cons_of_mem _ hd))]
        simp
      · rw [isPrefixOf_cons_of_ne hc]
        simp

/-- A replacement at an exact pattern occurrence substitutes and continues
past it. -/
theorem replaceAux_at_pattern (pat rep : List Char) (hne : pat ≠ [])
    (t : List Char) (fuel : ℕ) :
    replaceAux pat rep (fuel + 1) (pat ++ t) = rep ++ replaceAux pat rep fuel t := by
  cases pat with
  | nil => exact absurd rfl hne
  | cons p₀ pr =>
    rw [List.cons_append, replaceAux, if_pos]
    · rw [show List.drop (p₀ :: pr).length (p₀ :: (pr ++ t)) = t from by
        simp [List.length_cons, List.drop_succ_cons, List.drop_left]]
    · constructor
      · rw [show p₀ :: (pr ++ t) = (p₀ :: pr) ++ t from rfl]
        exact isPrefixOf_append_self _ _
      · simp

/-- Stripping fences from a backtick-free string only strips whitespace. -/
theorem stripFences_clean {s : String} (h : ∀ c ∈ s.data, c.toNat ≠ 96) :
    stripFences s = String.mk (pyStripL s.data) := by
  obtain ⟨p₀, pr, hp, hp96⟩ : ∃ p₀ pr, "```json".data = p₀ :: pr ∧ p₀.toNat = 96 :=
    ⟨_, _, rfl, by decide⟩
  obtain ⟨q₀, qr, hq, hq96⟩ : ∃ q₀ qr, "```".data = q₀ :: qr ∧ q₀.toNat = 96 :=
    ⟨_, _, rfl, by decide⟩
  have hne : ∀ c ∈ s.data, c ≠ p₀ := fun c hc hceq => h c hc (by rw [hceq, hp96])
  have hne2 : ∀ c ∈ s.data, c ≠ q₀ := fun c hc hceq => h c hc (by rw [hceq, hq96])
  have h1 : pyReplace s "```json" "" = s := by
    unfold pyReplace
    rw [show ("".data : List Char) = [] from rfl, hp,
      replaceAux_no_head pr [] s.data (s.data.length + 1) hne]
  have h2 : pyReplace s "```" "" = s := by
    unfold pyReplace
    rw [show ("".data : List Char) = [] from rfl, hq,
      replaceAux_no_head qr [] s.data (s.data.length + 1) hne2]
  unfold stripFences
  rw [h1, h2]

/-- Stripping the fences from a fence-wrapped backtick-free payload yields
the stripped payload. -/
theorem stripFences_fenced {s : String} (h : ∀ c ∈ s.data, c.toNat ≠ 96) :
    stripFences ("```json" ++ s ++ "```") = String.mk (pyStripL s.data) := by
  obtain ⟨p₀, pr, hp, hp96⟩ : ∃ p₀ pr, "```json".data = p₀ :: pr ∧ p₀.toNat = 96 :=
    ⟨_, _, rfl, by decide⟩
  obtain ⟨q₀, qr, hq, hq96⟩ : ∃ q₀ qr, "```".data = q₀ :: qr ∧ q₀.toNat = 96 :=
    ⟨_, _, rfl, by decide⟩
  have hne : ∀ c ∈ s.data, c ≠ p₀ := fun c hc hceq => h c hc (by rw [hceq, hp96])
  have hne2 : ∀ c ∈ s.data, c ≠ q₀ := fun c hc hceq => h c hc (by rw [hceq, hq96])
  have h1 : pyReplace ("```json" ++ s ++ "```") "```json" "" =
      String.mk (s.data ++ "```".data) := by
    unfold pyReplace
    rw [show ("".data : List Char) = [] from rfl]
    have hdata : ("```json" ++ s ++ "```").data =
        "```json".data ++ (s.data ++ "```".data) := by
      rw [String.data_append, String.data_append, List.append_assoc]
    rw [hdata]
    have hlen : ("```json".data ++ (s.data ++ "```".data)).length =
        s.data.length + 10 := by
      rw [List.length_append, List.length_append,
        show ("```json".data.length) = 7 from by decide,
        show ("```".data.length) = 3 from by decide]
      omega
    rw [hlen]
    rw [replaceAux_at_pattern "```json".data [] (by decide)
      (s.data ++ "```".data) (s.data.length + 10)]
    rw [List.nil_append, hp]
    rw [replaceAux_append_clean pr [] s.data "```".data (s.data.length + 10)
      (by omega) hne]
    rw [show s.data.length + 10 - s.data.length = 10 from by omega]
    rw [← hp]
    rw [show replaceAux "```json".data [] 10 "```".data = ("```".data : List Char)
      from by decide]
  have h2 : pyReplace (String.mk (s.data ++ "```".data)) "```" "" =
      String.mk s.data := by
    unfold pyReplace
    rw [show ("".data : List Char) = [] from rfl]
    rw [show (String.mk (s.data ++ "```".data)).data = s.data ++ "```".data from rfl]
    have hlen2 : (s.data ++ "```".data).length = s.data.length + 3 := by
      rw [List.length_append, show ("```".data.length) = 3 from by decide]
    rw [hlen2, hq]
    rw [replaceAux_append_clean qr [] s.data (q₀ :: qr) (s.data.length + 3 + 1)
      (by omega) hne2]
    rw [show s.data.length + 3 + 1 - s.data.length = 4 from by omega]
    rw [← hq]
    rw [show replaceAux "```".data [] 4 "```".data = ([] : List Char) from by decide]
    rw [List.append_nil]
  unfold stripFences
  rw [h1, h2]

/-- Claim C8: the engine validates the collaborator's text via the abstract
parse-and-validate oracle; a parse or validation failure yields the safe
fallback blueprint (domain "General", empty chart list, fixed apology
summary) instead of propagating; a successful parse is returned as-is (so
the function is total — it never raises); and a markdown code fence
(` ```json ... ``` `) wrapped around a backtick-free payload is tolerated:
the result is the same as for the bare payload. -/
theorem C8_sop_fallback (parse : String → Option DataBlueprint) (raw : String) :
    (parse (stripFences raw) = none →
      analyzeDatasetStructure parse raw = fallbackBlueprint) ∧
    (∀ bp, parse (stripFences raw) = some bp →
      analyzeDatasetStructure parse raw = bp) ∧
    fallbackBlueprint.domain = "General" ∧
    fallbackBlueprint.recommended_charts = [] ∧
    fallbackBlueprint.summary_insight = "AI analysis failed. Using raw data view." ∧
    (∀ s : String, (∀ c ∈ s.data, c.toNat ≠ 96) →
      analyzeDatasetStructure parse ("```json" ++ s ++ "```") =
        analyzeDatasetStructure parse s) := by
  refine ⟨?_, ?_, rfl, rfl, rfl, ?_⟩
  · intro h
    unfold analyzeDatasetStructure
    rw [h]
  · intro bp h
    unfold analyzeDatasetStructure
    rw [h]
  · intro s hs
    unfold analyzeDatasetStructure
    rw [stripFences_fenced hs, stripFences_clean hs]

/-- Witness for C8: a concrete parse oracle accepting exactly "x" — the
fenced blob produces the parsed blueprint, an unparsable blob produces the
fallback. -/
theorem C8_sop_fallback_witness :
    (∀ c ∈ ("x" : String).data, c.toNat ≠ 96) ∧
    analyzeDatasetStructure parseOnlyX "```jsonx```" = salesBlueprint ∧
    analyzeDatasetStructure parseOnlyX "garbage" = fallbackBlueprint := by
  have hx : ∀ c ∈ ("x" : String).data, c.toNat ≠ 96 := by decide
  have hfence := (C8_sop_fallback parseOnlyX "garbage").2.2.2.2.2 "x" hx
  have hsome := (C8_sop_fallback parseOnlyX "x").2.1 salesBlueprint (by decide)
  have hnone := (C8_sop_fallback parseOnlyX "garbage").1 (by decide)
  refine ⟨hx, ?_, hnone⟩
  rw [show ("```jsonx```" : String) = "```json" ++ "x" ++ "```" from by decide]
  rw [hfence, hsome]

/-! ## Claim C5: column-classification disjointness -/

theorem optMap_names {f : Column → Option Column}
    (hf : ∀ c c', f c = some c' → c'.name = c.name) :
    ∀ {l l' : Df}, optMap f l = some l' →
      l'.map (fun c => c.name) = l.map (fun c => c.name) := by
  intro l
  induction l with
  | nil =>
    intro l' h
    simp [optMap] at h
    subst h
    rfl
  | cons a as ih =>
    intro l' h
    cases h1 : f a with
    | none => rw [optMap, h1] at h; cases h
    | some b =>
      cases h2 : optMap f as with
      | none => rw [optMap, h1, h2] at h; cases h
      | some bs =>
        rw [optMap, h1, h2] at h
        cases h
        simp only [List.map_cons]
        rw [hf a b h1, ih h2]

theorem applyCurrencyCol_name {c c' : Column} (h : applyCurrencyCol c = some c') :
    c'.name = c.name := by
  unfold applyCurrencyCol at h
  split at h
  · cases hm : optMap (fun v => parseFloat (removeCurrencyChars (pyStr v))) c.cells with
    | none => rw [hm] at h; cases h
    | some cells => rw [hm] at h; cases h; rfl
  · cases h; rfl

theorem applyPercentCol_name {c c' : Column} (h : applyPercentCol c = some c') :
    c'.name = c.name := by
  unfold applyPercentCol at h
  split at h
  · cases hm : optMap (fun v =>
      (parseFloat ⟨(pyStr v).data.filter (fun ch => !(ch == '%'))⟩).map
        (fun p => match p with
          | .vNum q => PyVal.vNum (q / 100)
          | other => other)) c.cells with
    | none => rw [hm] at h; cases h
    | some cells => rw [hm] at h; cases h; rfl
  · cases h; rfl

theorem applyRule_names {df df' : Df} {ls : List String} {r : CleaningRule}
    (h : applyRule df r = some (df', ls)) :
    df'.map (fun c => c.name) = df.map (fun c => c.name) := by
  cases r with
  | currency =>
    unfold applyRule at h
    cases hm : optMap applyCurrencyCol df with
    | none => rw [hm] at h; cases h
    | some g =>
      rw [hm] at h
      cases h
      exact optMap_names (fun c c' hc => applyCurrencyCol_name hc) hm
  | percent =>
    unfold applyRule at h
    cases hm : optMap applyPercentCol df with
    | none => rw [hm] at h; cases h
    | some g =>
      rw [hm] at h
      cases h
      exact optMap_names (fun c c' hc => applyPercentCol_name hc) hm
  | nulls => unfold applyRule at h; cases h; rfl
  | trim =>
    unfold applyRule at h
    cases h
    rw [List.map_map]
    apply List.map_congr_left
    intro c _
    show (trimCol c).name = c.name
    unfold trimCol
    split <;> rfl
  | normalizeNames => unfold applyRule at h; cases h; rfl
  | convertDates => unfold applyRule at h; cases h; rfl

theorem applyRulesAux_names :
    ∀ (rules : List CleaningRule) (df : Df) (logs : List String)
      (df' : Df) (logs' : List String),
      applyRulesAux df logs rules = some (df', logs') →
      df'.map (fun c => c.name) = df.map (fun c => c.name) := by
  intro rules
  induction rules with
  | nil =>
    intro df logs df' logs' h
    unfold applyRulesAux at h
    cases h
    rfl
  | cons r rs ih =>
    intro df logs df' logs' h
    unfold applyRulesAux at h
    cases hr : applyRule df r with
    | none => rw [hr] at h; cases h
    | some p =>
      rw [hr] at h
      have h1 := applyRule_names (show applyRule df r = some (p.1, p.2) from by
        rw [hr])
      rw [ih p.1 (logs ++ p.2) df' logs' h, h1]

theorem applyCleaningRules_names {df df' : Df} {logs : List String}
    {rules : List CleaningRule}
    (h : applyCleaningRules df rules = some (df', logs)) :
    df'.map (fun c => c.name) = df.map (fun c => c.name) := by
  unfold applyCleaningRules at h
  cases ha : applyRulesAux df [] rules with
  | none => rw [ha] at h; cases h
  | some p =>
    rw [ha] at h
    cases h
    exact applyRulesAux_names rules df [] p.1 p.2 ha

theorem dropEmptyRows_names (df : Df) :
    (dropEmptyRows df).map (fun c => c.name) = df.map (fun c => c.name) := by
  unfold dropEmptyRows
  rw [List.map_map]
  rfl

/-- Core disjointness of the classification built by `clean` on any frame:
under standardization-collision-freedom, the numeric set (which excludes
date columns) is disjoint from both the date set and the categorical set. -/
theorem classification_disjoint (g : Df)
    (hnd : (g.map (fun c => standardizeHeader c.name)).Nodup) :
    (((numericColumnsRaw g).filter
        (fun c => !(detectDateColumns g).contains c)).map standardizeHeader).Disjoint
      ((detectDateColumns g).map standardizeHeader) ∧
    (((numericColumnsRaw g).filter
        (fun c => !(detectDateColumns g).contains c)).map standardizeHeader).Disjoint
      ((categoricalColumnsRaw g).map standardizeHeader) := by
  have hinj : ∀ c₁ ∈ g, ∀ c₂ ∈ g,
      standardizeHeader c₁.name = standardizeHeader c₂.name → c₁ = c₂ :=
    fun c₁ h₁ c₂ h₂ he => List.inj_on_of_nodup_map hnd h₁ h₂ he
  constructor
  · intro x hx hx2
    rcases List.mem_map.mp hx with ⟨n₁, hn₁, rfl⟩
    rcases List.mem_filter.mp hn₁ with ⟨hn₁n, hP⟩
    rcases List.mem_map.mp hn₁n with ⟨c₁, hc₁, rfl⟩
    rcases List.mem_filter.mp hc₁ with ⟨hc₁g, _⟩
    rcases List.mem_map.mp hx2 with ⟨n₂, hn₂, he⟩
    rcases List.mem_map.mp hn₂ with ⟨c₂, hc₂, rfl⟩
    rcases List.mem_filter.mp hc₂ with ⟨hc₂g, _⟩
    have hceq : c₁ = c₂ := hinj c₁ hc₁g c₂ hc₂g he.symm
    subst hceq
    have hmem : c₁.name ∈ detectDateColumns g := by
      unfold detectDateColumns
      exact List.mem_map.mpr ⟨c₁, hc₂, rfl⟩
    have hcont : (detectDateColumns g).contains c₁.name = true :=
      List.elem_eq_true_of_mem hmem
    rw [hcont] at hP
    cases hP
  · intro x hx hx2
    rcases List.mem_map.mp hx with ⟨n₁, hn₁, rfl⟩
    rcases List.mem_filter.mp hn₁ with ⟨hn₁n, _⟩
    rcases List.mem_map.mp hn₁n with ⟨c₁, hc₁, rfl⟩
    rcases List.mem_filter.mp hc₁ with ⟨hc₁g, hdt₁⟩
    rcases List.mem_map.mp hx2 with ⟨n₂, hn₂, he⟩
    rcases List.mem_map.mp hn₂ with ⟨c₂, hc₂, rfl⟩
    rcases List.mem_filter.mp hc₂ with ⟨hc₂g, hdt₂⟩
    have hceq : c₁ = c₂ := hinj c₁ hc₁g c₂ hc₂g he.symm
    subst hceq
    simp only [decide_eq_true_eq] at hdt₁ hdt₂
    rcases hdt₂ with h | h <;> rw [hdt₁] at h <;> cases h

/-- Claim C5 counterexample: the classification is NOT pairwise disjoint.
On a frame with one text (object-dtype) column named "date", `clean` puts
"date" into both the categorical set (by dtype) and the date set (by name
pattern): date columns are excluded from the numeric set only, never from
the categorical set. -/
theorem C5_counterexample :
    clean dateTextDf "general" = some ⟨["date"], [], [], ["date"], ["date"], 0,
      ["[RULES] Applied 2 domain-specific cleaning rules"]⟩ ∧
    ¬ ((["date"] : List String).Disjoint (["date"] : List String)) := by
  refine ⟨by decide, ?_⟩
  intro hd
  exact hd (List.mem_singleton.mpr rfl) (List.mem_singleton.mpr rfl)

/-- Claim C5 (amended): in the ColumnClassification produced by cleaning,
the numeric set is disjoint from the date set (date columns take
precedence) and from the categorical set, provided header standardization
does not collide two distinct column names; but the categorical and date
sets may overlap — an object-dtype column with a date-like name appears in
both (see the counterexample). -/
theorem C5_classification_amended (df : Df) (domain : String) (res : CleanResult)
    (hres : clean df domain = some res)
    (hnodup : (df.map (fun c => standardizeHeader c.name)).Nodup) :
    res.numeric_columns.Disjoint res.date_columns ∧
    res.numeric_columns.Disjoint res.categorical_columns := by
  unfold clean at hres
  cases happ : applyCleaningRules df (DOMAIN_RULES domain) with
  | none => rw [happ] at hres; cases hres
  | some p =>
    rw [happ, Option.map_some'] at hres
    cases hres
    have hnames : (dropEmptyRows p.1).map (fun c => c.name) =
        df.map (fun c => c.name) := by
      rw [dropEmptyRows_names]
      exact applyCleaningRules_names (show applyCleaningRules df
        (DOMAIN_RULES domain) = some (p.1, p.2) from by rw [happ])
    have hmapstd : ∀ g : Df, g.map (fun c => standardizeHeader c.name) =
        (g.map (fun c => c.name)).map standardizeHeader := by
      intro g
      rw [List.map_map]
      rfl
    have hnd2 : ((dropEmptyRows p.1).map
        (fun c => standardizeHeader c.name)).Nodup := by
      rw [hmapstd, hnames, ← hmapstd]
      exact hnodup
    exact classification_disjoint (dropEmptyRows p.1) hnd2

/-- Witness for C5 (amended): a collision-free frame with a numeric and a
text column; the standardized numeric set is disjoint from both other
sets. -/
theorem C5_classification_amended_witness :
    clean salaryDeptDf "general" = some ⟨["salary", "dept"], [], ["salary"],
      ["dept"], [], 0, ["[RULES] Applied 2 domain-specific cleaning rules"]⟩ ∧
    (salaryDeptDf.map (fun c => standardizeHeader c.name)).Nodup ∧
    ((["salary"] : List String).Disjoint ([] : List String) ∧
      (["salary"] : List String).Disjoint (["dept"] : List String)) := by
  have h1 : clean salaryDeptDf "general" = some ⟨["salary", "dept"], [], ["salary"],
      ["dept"], [], 0, ["[RULES] Applied 2 domain-specific cleaning rules"]⟩ := by
    decide
  have h2 : (salaryDeptDf.map (fun c => standardizeHeader c.name)).Nodup := by decide
  exact ⟨h1, h2, C5_classification_amended salaryDeptDf "general" _ h1 h2⟩

/-! ## Claim C9: empty-row removal -/

theorem mapped_any_not (df : Df) (i : ℕ) :
    ((df.map (fun c => cellAt c i)).any fun v => !v.isNull) =
      !df.all (fun c => (cellAt c i).isNull) := by
  induction df with
  | nil => rfl
  | cons a t ih => simp [List.any_cons, List.all_cons, List.map_cons, ih]

theorem nRows_dropEmptyRows (df : Df) :
    nRows (dropEmptyRows df) = (keptIndices df).length := by
  cases df with
  | nil => rfl
  | cons c cs => simp [dropEmptyRows, nRows]

theorem rowAt_dropEmptyRows (df : Df) (j : ℕ) (hj : j < (keptIndices df).length) :
    rowAt (dropEmptyRows df) j = rowAt df ((keptIndices df).getD j 0) := by
  unfold rowAt dropEmptyRows
  rw [List.map_map]
  apply List.map_congr_left
  intro c _
  show ((keptIndices df).map (fun i => cellAt c i)).getD j PyVal.vNull =
    cellAt c ((keptIndices df).getD j 0)
  rw [List.getD_eq_getElem _ _ (by simpa using hj), List.getElem_map,
    List.getD_eq_getElem _ _ hj]

/-- The rows surviving `dropna(how='all')` are exactly the rows with at
least one non-null cell, in their original order. -/
theorem rows_dropEmptyRows (df : Df) :
    (List.range (nRows (dropEmptyRows df))).map (rowAt (dropEmptyRows df)) =
      ((List.range (nRows df)).map (rowAt df)).filter
        (fun row => row.any (fun v => !v.isNull)) := by
  have hfil : ((List.range (nRows df)).map (rowAt df)).filter
      (fun row => row.any (fun v => !v.isNull)) =
        (keptIndices df).map (rowAt df) := by
    rw [List.filter_map]
    unfold keptIndices
    congr 1
    apply List.filter_congr
    intro i _
    show (rowAt df i).any (fun v => !v.isNull) = !rowAllNull df i
    unfold rowAt rowAllNull
    exact mapped_any_not df i
  rw [nRows_dropEmptyRows, hfil]
  apply List.ext_getElem
  · simp
  · intro j h1 h2
    simp only [List.getElem_map, List.getElem_range]
    have hj : j < (keptIndices df).length := by simpa using h2
    rw [rowAt_dropEmptyRows df j hj, List.getD_eq_getElem _ _ hj]

theorem optMap_id_of {f : Column → Option Column} {l : Df}
    (h : ∀ a ∈ l, f a = some a) : optMap f l = some l := by
  induction l with
  | nil => rfl
  | cons a t ih =>
    rw [optMap, h a (List.mem_cons_self _ _),
      ih (fun b hb => h b (List.mem_cons_of_mem _ hb))]

theorem applyCurrencyCol_nonobject {c : Column} (h : c.dtype ≠ .object) :
    applyCurrencyCol c = some c := by
  unfold applyCurrencyCol
  rw [if_neg]
  intro hc
  exact h hc.1

theorem applyPercentCol_nonobject {c : Column} (h : c.dtype ≠ .object) :
    applyPercentCol c = some c := by
  unfold applyPercentCol
  rw [if_neg]
  intro hc
  exact h hc.1

theorem trimCol_nonobject {c : Column} (h : c.dtype ≠ .object) : trimCol c = c := by
  unfold trimCol
  rw [if_neg h]

/-- On a frame with no text columns, every cleaning rule leaves the frame
unchanged (only its log may differ). -/
theorem applyRule_keeps_df {df df' : Df} {ls : List String} {r : CleaningRule}
    (hobj : ∀ c ∈ df, c.dtype ≠ .object)
    (happ : applyRule df r = some (df', ls)) : df' = df := by
  cases r with
  | currency =>
    unfold applyRule at happ
    rw [optMap_id_of (fun c hc => applyCurrencyCol_nonobject (hobj c hc))] at happ
    cases happ
    rfl
  | percent =>
    unfold applyRule at happ
    rw [optMap_id_of (fun c hc => applyPercentCol_nonobject (hobj c hc))] at happ
    cases happ
    rfl
  | nulls => unfold applyRule at happ; cases happ; rfl
  | trim =>
    unfold applyRule at happ
    cases happ
    rw [List.map_congr_left (fun c hc => trimCol_nonobject (hobj c hc))]
    simp
  | normalizeNames => unfold applyRule at happ; cases happ; rfl
  | convertDates => unfold applyRule at happ; cases happ; rfl

theorem applyRulesAux_keeps_df :
    ∀ (rules : List CleaningRule) (df : Df) (logs : List String)
      (df' : Df) (logs' : List String),
      (∀ c ∈ df, c.dtype ≠ .object) →
      applyRulesAux df logs rules = some (df', logs') → df' = df := by
  intro rules
  induction rules with
  | nil =>
    intro df logs df' logs' _ h
    unfold applyRulesAux at h
    cases h
    rfl
  | cons r rs ih =>
    intro df logs df' logs' hobj h
    unfold applyRulesAux at h
    cases hr : applyRule df r with
    | none => rw [hr] at h; cases h
    | some p =>
      rw [hr] at h
      have hp1 : p.1 = df :=
        applyRule_keeps_df hobj (show applyRule df r = some (p.1, p.2) from by rw [hr])
      rw [ih p.1 (logs ++ p.2) df' logs' (by rw [hp1]; exact hobj) h, hp1]

/-- Claim C9 counterexample: on a frame whose first row is null in every
column but which has a text column, the whitespace-trim rule has already
turned the text column's nulls into the string "nan" before
`dropna(how='all')` runs, so the entirely-empty source row SURVIVES
cleaning: the output still has 2 rows and the first output row is
`["nan", null]`. -/
theorem C9_counterexample :
    rowAllNull emptyRowDf 0 = true ∧
    (clean emptyRowDf "general").map (fun r => r.row_count) = some 2 ∧
    (clean emptyRowDf "general").map (fun r => r.rows.headD []) =
      some [.vStr "nan", .vNull] := by
  refine ⟨by decide, by decide, by decide⟩

/-- Claim C9 (amended): after cleaning, the surviving rows are exactly the
rows that are non-null in at least one column AFTER rule application, in
original order.  When the frame has no text (object-dtype) columns the
rules do not modify any cell, so the cleaned rows are exactly the source
rows with at least one non-empty cell, in their original order; with a
text column, an all-empty source row survives because its text cells have
become the literal string "nan" (see the counterexample). -/
theorem C9_empty_rows_amended (df : Df) (domain : String) (res : CleanResult)
    (hres : clean df domain = some res)
    (hobj : ∀ c ∈ df, c.dtype ≠ .object) :
    res.rows = ((List.range (nRows df)).map (rowAt df)).filter
      (fun row => row.any (fun v => !v.isNull)) := by
  unfold clean at hres
  cases happ : applyCleaningRules df (DOMAIN_RULES domain) with
  | none => rw [happ] at hres; cases hres
  | some p =>
    rw [happ, Option.map_some'] at hres
    cases hres
    have hp1 : p.1 = df := by
      unfold applyCleaningRules at happ
      cases ha : applyRulesAux df [] (DOMAIN_RULES domain) with
      | none => rw [ha] at happ; cases happ
      | some q =>
        rw [ha, Option.map_some'] at happ
        have : q.1 = df := applyRulesAux_keeps_df _ df [] q.1 q.2 hobj ha
        rw [show p = (q.1, q.2 ++ _) from by injection happ with h; rw [← h]]
        exact this
    show (List.range (nRows (dropEmptyRows p.1))).map (rowAt (dropEmptyRows p.1)) = _
    rw [hp1, rows_dropEmptyRows]

/-- Witness for C9 (amended): an all-numeric frame with an empty first row;
cleaning keeps exactly the non-empty row. -/
theorem C9_empty_rows_amended_witness :
    clean numericOnlyDf "general" = some ⟨["x"], [[.vNum 7]], ["x"], [], [], 1,
      ["[NULL] Handled 1 null/empty values",
       "[RULES] Applied 2 domain-specific cleaning rules",
       "[CLEAN] Removed 1 invalid/empty rows"]⟩ ∧
    (∀ c ∈ numericOnlyDf, c.dtype ≠ Dtype.object) ∧
    [[PyVal.vNum 7]] = ((List.range (nRows numericOnlyDf)).map (rowAt numericOnlyDf)).filter
      (fun row => row.any (fun v => !v.isNull)) := by
  have h1 : clean numericOnlyDf "general" = some ⟨["x"], [[.vNum 7]], ["x"], [], [], 1,
      ["[NULL] Handled 1 null/empty values",
       "[RULES] Applied 2 domain-specific cleaning rules",
       "[CLEAN] Removed 1 invalid/empty rows"]⟩ := by rfl
  have h2 : ∀ c ∈ numericOnlyDf, c.dtype ≠ Dtype.object := by decide
  exact ⟨h1, h2, C9_empty_rows_amended numericOnlyDf "general" _ h1 h2⟩

/-! ## Claim C10: the trim rule nulls-to-"nan" invariant -/

theorem optMap_rel {f : Column → Option Column} :
    ∀ {l l' : Df}, optMap f l = some l' →
      l'.length = l.length ∧
        ∀ k, k < l.length → f (colAt l k) = some (colAt l' k) := by
  intro l
  induction l with
  | nil =>
    intro l' h
    simp [optMap] at h
    subst h
    exact ⟨rfl, fun k hk => absurd hk (by simp)⟩
  | cons a t ih =>
    intro l' h
    cases h1 : f a with
    | none => rw [optMap, h1] at h; cases h
    | some b =>
      cases h2 : optMap f t with
      | none => rw [optMap, h1, h2] at h; cases h
      | some bs =>
        rw [optMap, h1, h2] at h
        cases h
        obtain ⟨hl, hk⟩ := ih h2
        refine ⟨by simp [hl], ?_⟩
        intro k hkk
        cases k with
        | zero => exact h1
        | succ m =>
          have hm : m < t.length := by simpa using hkk
          exact hk m hm

theorem applyCurrencyCol_object_stable {c c' : Column}
    (h : applyCurrencyCol c = some c') (ho : c'.dtype = .object) : c' = c := by
  unfold applyCurrencyCol at h
  split at h
  · cases hm : optMap (fun v => parseFloat (removeCurrencyChars (pyStr v))) c.cells with
    | none => rw [hm] at h; cases h
    | some cells =>
      rw [hm] at h
      cases h
      cases ho
  · cases h; rfl

theorem applyPercentCol_object_stable {c c' : Column}
    (h : applyPercentCol c = some c') (ho : c'.dtype = .object) : c' = c := by
  unfold applyPercentCol at h
  split at h
  · cases hm : optMap (fun v =>
      (parseFloat ⟨(pyStr v).data.filter (fun ch => !(ch == '%'))⟩).map
        (fun p => match p with
          | .vNum q => PyVal.vNum (q / 100)
          | other => other)) c.cells with
    | none => rw [hm] at h; cases h
    | some cells =>
      rw [hm] at h
      cases h
      cases ho
  · cases h; rfl

/-- Every rule other than the trim rule leaves a column that is still
object-typed afterwards completely untouched. -/
theorem applyRule_object_stable {df df' : Df} {ls : List String} {r : CleaningRule}
    (hr : r ≠ .trim) (h : applyRule df r = some (df', ls)) :
    df'.length = df.length ∧
      ∀ k, k < df'.length → (colAt df' k).dtype = .object →
        colAt df' k = colAt df k := by
  cases r with
  | currency =>
    unfold applyRule at h
    cases hm : optMap applyCurrencyCol df with
    | none => rw [hm] at h; cases h
    | some g =>
      rw [hm] at h
      cases h
      obtain ⟨hl, hk⟩ := optMap_rel hm
      refine ⟨hl, ?_⟩
      intro k hkk ho
      exact applyCurrencyCol_object_stable (hk k (hl ▸ hkk)) ho
  | percent =>
    unfold applyRule at h
    cases hm : optMap applyPercentCol df with
    | none => rw [hm] at h; cases h
    | some g =>
      rw [hm] at h
      cases h
      obtain ⟨hl, hk⟩ := optMap_rel hm
      refine ⟨hl, ?_⟩
      intro k hkk ho
      exact applyPercentCol_object_stable (hk k (hl ▸ hkk)) ho
  | nulls => unfold applyRule at h; cases h; exact ⟨rfl, fun _ _ _ => rfl⟩
  | trim => exact absurd rfl hr
  | normalizeNames => unfold applyRule at h; cases h; exact ⟨rfl, fun _ _ _ => rfl⟩
  | convertDates => unfold applyRule at h; cases h; exact ⟨rfl, fun _ _ _ => rfl⟩

theorem applyRulesAux_object_stable :
    ∀ (rules : List CleaningRule), CleaningRule.trim ∉ rules →
      ∀ (df : Df) (logs : List String) (df' : Df) (logs' : List String),
        applyRulesAux df logs rules = some (df', logs') →
        df'.length = df.length ∧
          ∀ k, k < df'.length → (colAt df' k).dtype = .object →
            colAt df' k = colAt df k := by
  intro rules
  induction rules with
  | nil =>
    intro _ df logs df' logs' h
    unfold applyRulesAux at h
    cases h
    exact ⟨rfl, fun _ _ _ => rfl⟩
  | cons r rs ih =>
    intro hmem df logs df' logs' h
    have hr : r ≠ .trim := fun he => hmem (he ▸ List.mem_cons_self _ _)
    have hrs : CleaningRule.trim ∉ rs := fun he => hmem (List.mem_cons_of_mem _ he)
    unfold applyRulesAux at h
    cases ha : applyRule df r with
    | none => rw [ha] at h; cases h
    | some p =>
      rw [ha] at h
      obtain ⟨hl1, hk1⟩ := applyRule_object_stable hr
        (show applyRule df r = some (p.1, p.2) from by rw [ha])
      obtain ⟨hl2, hk2⟩ := ih hrs p.1 (logs ++ p.2) df' logs' h
      refine ⟨hl2.trans hl1, ?_⟩
      intro k hkk ho
      have h2 := hk2 k hkk ho
      rw [h2]
      rw [h2] at ho
      exact hk1 k (by rw [← hl2]; exact hkk) ho

theorem applyRulesAux_cons (r : CleaningRule) (l : List CleaningRule)
    (d : Df) (lg : List String) :
    applyRulesAux d lg (r :: l) =
      match applyRule d r with
      | none => none
      | some p => applyRulesAux p.1 (lg ++ p.2) l := by
  cases hr : applyRule d r with
  | none => simp [applyRulesAux, hr]
  | some p => simp [applyRulesAux, hr]

theorem applyRulesAux_split :
    ∀ (rs₁ rs₂ : List CleaningRule) (df : Df) (logs : List String),
      applyRulesAux df logs (rs₁ ++ rs₂) =
        match applyRulesAux df logs rs₁ with
        | none => none
        | some p => applyRulesAux p.1 p.2 rs₂ := by
  intro rs₁
  induction rs₁ with
  | nil => intro rs₂ df logs; rfl
  | cons r rs ih =>
    intro rs₂ df logs
    rw [List.cons_append, applyRulesAux_cons, applyRulesAux_cons]
    cases hr : applyRule df r with
    | none => rfl
    | some p => exact ih rs₂ p.1 (logs ++ p.2)

theorem applyRulesAux_append_some {rs₁ rs₂ : List CleaningRule} {df : Df}
    {logs : List String} {q : Df × List String}
    (h : applyRulesAux df logs rs₁ = some q) :
    applyRulesAux df logs (rs₁ ++ rs₂) = applyRulesAux q.1 q.2 rs₂ := by
  rw [applyRulesAux_split rs₁ rs₂ df logs, h]

theorem applyRulesAux_append_none {rs₁ rs₂ : List CleaningRule} {df : Df}
    {logs : List String} (h : applyRulesAux df logs rs₁ = none) :
    applyRulesAux df logs (rs₁ ++ rs₂) = none := by
  rw [applyRulesAux_split rs₁ rs₂ df logs, h]

theorem trimCol_dtype (c : Column) : (trimCol c).dtype = c.dtype := by
  unfold trimCol
  split <;> rfl

theorem colAt_map_trim (l : Df) (k : ℕ) (hk : k < l.length) :
    colAt (l.map trimCol) k = trimCol (colAt l k) := by
  unfold colAt
  rw [List.getD_eq_getElem _ _ (by simpa using hk), List.getElem_map,
    List.getD_eq_getElem _ _ hk]

/-- Claim C10: every domain's rule list ends with the whitespace-trim rule,
and after `_apply_cleaning_rules` completes, every object-dtype column
contains no nulls: each of its cells is the stripped stringification of the
corresponding source cell, so every source null has become the literal
string "nan"; and the trim rule appends nothing to the cleaning log. -/
theorem C10_trim_nan (domain : String) (df df' : Df) (logs : List String)
    (happ : applyCleaningRules df (DOMAIN_RULES domain) = some (df', logs)) :
    (df'.length = df.length ∧
      ∀ k, k < df'.length → (colAt df' k).dtype = .object →
        (colAt df' k).name = (colAt df k).name ∧
        (colAt df' k).cells = (colAt df k).cells.map
          (fun v => .vStr (String.mk (pyStripL (pyStr v).data))) ∧
        (∀ v ∈ (colAt df' k).cells, v.isNull = false) ∧
        (∀ i, i < (colAt df k).cells.length →
          (colAt df k).cells.getD i .vNull = .vNull →
          (colAt df' k).cells.getD i .vNull = .vStr "nan")) ∧
    (∀ g : Df, (applyRule g .trim).map Prod.snd = some []) := by
  have main : ∀ (pre : List CleaningRule), CleaningRule.trim ∉ pre →
      applyCleaningRules df (pre ++ [.trim]) = some (df', logs) →
      df'.length = df.length ∧
        ∀ k, k < df'.length → (colAt df' k).dtype = .object →
          (colAt df' k).name = (colAt df k).name ∧
          (colAt df' k).cells = (colAt df k).cells.map
            (fun v => .vStr (String.mk (pyStripL (pyStr v).data))) ∧
          (∀ v ∈ (colAt df' k).cells, v.isNull = false) ∧
          (∀ i, i < (colAt df k).cells.length →
            (colAt df k).cells.getD i .vNull = .vNull →
            (colAt df' k).cells.getD i .vNull = .vStr "nan") := by
    intro pre hpre h
    unfold applyCleaningRules at h
    cases ha : applyRulesAux df [] pre with
    | none =>
      rw [applyRulesAux_append_none ha, Option.map_none'] at h
      cases h
    | some q =>
      rw [applyRulesAux_append_some ha] at h
      have htrim : applyRulesAux q.1 q.2 [CleaningRule.trim] =
          some (q.1.map trimCol, q.2 ++ []) := rfl
      rw [htrim, Option.map_some'] at h
      injection h with hpair
      have hdf' : df' = q.1.map trimCol := (congrArg Prod.fst hpair).symm
      obtain ⟨hl, hk⟩ := applyRulesAux_object_stable pre hpre df [] q.1 q.2 ha
      subst hdf'
      have hlen : (q.1.map trimCol).length = df.length := by
        rw [List.length_map]; exact hl
      refine ⟨hlen, ?_⟩
      intro k hkk ho
      have hkq : k < q.1.length := by
        rw [← List.length_map q.1 trimCol]; exact hkk
      have hcm : colAt (q.1.map trimCol) k = trimCol (colAt q.1 k) :=
        colAt_map_trim q.1 k hkq
      have hoq : (colAt q.1 k).dtype = .object := by
        rw [hcm, trimCol_dtype] at ho
        exact ho
      have hstable : colAt q.1 k = colAt df k := hk k hkq hoq
      have hexp : colAt (q.1.map trimCol) k =
          ⟨(colAt df k).name, (colAt df k).dtype, (colAt df k).cells.map
            (fun v => .vStr (String.mk (pyStripL (pyStr v).data)))⟩ := by
        rw [hcm, hstable]
        unfold trimCol
        rw [if_pos (hstable ▸ hoq)]
      refine ⟨by rw [hexp], by rw [hexp], ?_, ?_⟩
      · intro v hv
        rw [hexp] at hv
        rcases List.mem_map.mp hv with ⟨w, _, rfl⟩
        rfl
      · intro i hi hnull
        rw [hexp]
        show ((colAt df k).cells.map
          (fun v => PyVal.vStr (String.mk (pyStripL (pyStr v).data)))).getD i .vNull =
            .vStr "nan"
        rw [List.getD_eq_getElem _ _ (by simpa using hi), List.getElem_map]
        rw [List.getD_eq_getElem _ _ hi] at hnull
        rw [hnull]
        rfl
  refine ⟨?_, fun g => rfl⟩
  by_cases h1 : domain = "finance"
  · refine main [.currency, .percent, .nulls] (by decide) ?_
    rw [show DOMAIN_RULES domain = [.currency, .percent, .nulls] ++ [.trim] from by
      unfold DOMAIN_RULES
      rw [if_pos h1]
      rfl] at happ
    exact happ
  · by_cases h2 : domain = "hr"
    · refine main [.normalizeNames, .convertDates, .nulls] (by decide) ?_
      rw [show DOMAIN_RULES domain = [.normalizeNames, .convertDates, .nulls] ++
        [.trim] from by
        unfold DOMAIN_RULES
        rw [if_neg h1, if_pos h2]
        rfl] at happ
      exact happ
    · refine main [.nulls] (by decide) ?_
      rw [show DOMAIN_RULES domain = [.nulls] ++ [.trim] from by
        unfold DOMAIN_RULES
        rw [if_neg h1, if_neg h2]
        rfl] at happ
      exact happ

/-- Witness for C10: a single text column holding one null, cleaned under
the finance domain; the null cell comes out as the string "nan" and the
only log lines are the null-count and rule-count lines (none from trim). -/
theorem C10_trim_nan_witness :
    applyCleaningRules nullTextDf (DOMAIN_RULES "finance") =
      some ([⟨"t", Dtype.object, [.vStr "nan"]⟩],
        ["[NULL] Handled 1 null/empty values",
         "[RULES] Applied 4 domain-specific cleaning rules"]) ∧
    (colAt [⟨"t", Dtype.object, [.vStr "nan"]⟩] 0).cells.getD 0 .vNull =
      .vStr "nan" ∧
    (∀ v ∈ (colAt [(⟨"t", Dtype.object, [.vStr "nan"]⟩ : Column)] 0).cells,
      v.isNull = false) := by
  have h : applyCleaningRules nullTextDf (DOMAIN_RULES "finance") =
      some ([⟨"t", Dtype.object, [.vStr "nan"]⟩],
        ["[NULL] Handled 1 null/empty values",
         "[RULES] Applied 4 domain-specific cleaning rules"]) := by decide
  obtain ⟨⟨_, hk⟩, _⟩ := C10_trim_nan "finance" nullTextDf _ _ h
  obtain ⟨_, _, hnonull, hnan⟩ := hk 0 (by decide) (by decide)
  exact ⟨h, hnan 0 (by decide) (by decide), hnonull⟩
/-! ## Claim C4: forecast trend and non-negativity -/

/-- Claim C4: whenever a forecast is produced (the series has at least 3
rows), the trend is "Stable" iff `|slope| < 0.01 * mean`, otherwise
"Upward"/"Downward" by slope sign; the forecast has `monthsAhead` points
(source default 6), each dated 30 days after the previous (the first 30
days after the last historical date), each with value
`max(0, slope * nextIndex + intercept)` rounded to 2 decimals — hence
never negative, regardless of slope sign or magnitude. -/
theorem C4_forecast (ys : List ℚ) (m : ℕ) (d : ℚ) (h : 3 ≤ ys.length) :
    ∃ F, forecast ys m d = some F ∧
      (F.trend = "Stable" ↔ |slopeOf ys| < 1/100 * meanOf ys) ∧
      (¬(|slopeOf ys| < 1/100 * meanOf ys) →
        (0 < slopeOf ys → F.trend = "Upward") ∧
        (slopeOf ys < 0 → F.trend = "Downward")) ∧
      F.forecast_data.length = m ∧
      (∀ j, j < m → (F.forecast_data.getD j default).value =
        roundTo 2 (max 0 (slopeOf ys * ((ys.length - 1 + (j + 1) : ℕ) : ℚ) +
          interceptOf ys))) ∧
      (∀ p ∈ F.forecast_data, 0 ≤ p.value) ∧
      (∀ j, j + 1 < m → (F.forecast_data.getD (j + 1) default).date -
        (F.forecast_data.getD j default).date = 30) ∧
      (0 < m → (F.forecast_data.getD 0 default).date = d + 30) := by
  have hguard : ¬(ys.length < 3) := not_lt.mpr h
  refine ⟨⟨trendOf ys, roundTo 2 (slopeOf ys),
    (List.range m).map (forecastPoint ys d)⟩, ?_, ?_, ?_, ?_, ?_, ?_, ?_, ?_⟩
  · unfold forecast
    rw [if_neg hguard]
    rfl
  · show trendOf ys = "Stable" ↔ |slopeOf ys| < 1/100 * meanOf ys
    unfold trendOf
    by_cases h1 : |slopeOf ys| < 1/100 * meanOf ys
    · rw [if_pos h1]
      exact iff_of_true rfl h1
    · rw [if_neg h1]
      by_cases h2 : 0 < slopeOf ys
      · rw [if_pos h2]
        exact iff_of_false (by decide) h1
      · rw [if_neg h2]
        exact iff_of_false (by decide) h1
  · intro h1
    constructor
    · intro h2
      show trendOf ys = "Upward"
      unfold trendOf
      rw [if_neg h1, if_pos h2]
    · intro h3
      show trendOf ys = "Downward"
      unfold trendOf
      rw [if_neg h1, if_neg (not_lt.mpr (le_of_lt h3))]
  · simp
  · intro j hj
    show (((List.range m).map (forecastPoint ys d)).getD j default).value = _
    rw [List.getD_eq_getElem _ _ (by simpa using hj), List.getElem_map,
      List.getElem_range]
    show max 0 (roundTo 2 (slopeOf ys * ((ys.length - 1 + (j + 1) : ℕ) : ℚ) +
      interceptOf ys)) = _
    exact (roundTo_max_comm 2 _).symm
  · intro p hp
    rcases List.mem_map.mp hp with ⟨j, _, rfl⟩
    exact le_max_left 0 _
  · intro j hj
    show (((List.range m).map (forecastPoint ys d)).getD (j + 1) default).date -
      (((List.range m).map (forecastPoint ys d)).getD j default).date = 30
    rw [List.getD_eq_getElem _ _ (by simpa using hj), List.getElem_map,
      List.getElem_range,
      List.getD_eq_getElem _ _ (by simp; omega), List.getElem_map,
      List.getElem_range]
    show d + 30 * ((j + 1 + 1 : ℕ) : ℚ) - (d + 30 * ((j + 1 : ℕ) : ℚ)) = 30
    push_cast
    ring
  · intro hm
    show (((List.range m).map (forecastPoint ys d)).getD 0 default).date = d + 30
    rw [List.getD_eq_getElem _ _ (by simpa using hm), List.getElem_map,
      List.getElem_range]
    show d + 30 * ((0 + 1 : ℕ) : ℚ) = d + 30
    push_cast
    ring

/-- Witness for C4: the series [1, 2, 3] with the default horizon 6. -/
theorem C4_forecast_witness :
    3 ≤ ([1, 2, 3] : List ℚ).length ∧
    ∃ F, forecast [1, 2, 3] 6 0 = some F ∧ F.forecast_data.length = 6 ∧
      ∀ p ∈ F.forecast_data, 0 ≤ p.value := by
  obtain ⟨F, heq, _, _, hlen, _, hnn, _, _⟩ := C4_forecast [1, 2, 3] 6 0 (by decide)
  exact ⟨by decide, F, heq, hlen, hnn⟩

/-! ## Claim C3: correlation qualification, threshold, ordering, cap -/

theorem calculateCorrelations_eq (corrM : String → String → Option ℚ)
    (numericCols dfCols : List String) :
    calculateCorrelations corrM numericCols dfCols =
      if (meaningfulCols numericCols dfCols).length < 2 then []
      else ((corrRecords corrM (meaningfulCols numericCols dfCols)).insertionSort
        corrGe).take 10 := rfl

theorem pairsAfter_mem {a b : String} :
    ∀ {l : List String}, (a, b) ∈ pairsAfter l → a ∈ l ∧ b ∈ l := by
  intro l
  induction l with
  | nil => intro h; simp [pairsAfter] at h
  | cons x xs ih =>
    intro h
    rw [pairsAfter] at h
    rcases List.mem_append.mp h with h1 | h2
    · rcases List.mem_map.mp h1 with ⟨y, hy, he⟩
      injection he with he1 he2
      subst he1
      subst he2
      exact ⟨List.mem_cons_self _ _, List.mem_cons_of_mem _ hy⟩
    · obtain ⟨ha, hb⟩ := ih h2
      exact ⟨List.mem_cons_of_mem _ ha, List.mem_cons_of_mem _ hb⟩

theorem pairsAfter_short : ∀ {l : List String}, l.length < 2 → pairsAfter l = [] := by
  intro l
  cases l with
  | nil => intro _; rfl
  | cons x xs =>
    intro h
    cases xs with
    | nil => rfl
    | cons y ys =>
      exfalso
      rw [List.length_cons, List.length_cons] at h
      omega

theorem mem_corrRecords {corrM : String → String → Option ℚ} {m : List String}
    {rec : CorrelationRecord} (h : rec ∈ corrRecords corrM m) :
    ∃ a b r, (a, b) ∈ pairsAfter m ∧ corrM a b = some r ∧ 3/10 < |r| ∧
      rec = ⟨a, b, roundTo 3 r, generateInsight a b r⟩ := by
  unfold corrRecords at h
  rcases List.mem_filterMap.mp h with ⟨p, hp, hf⟩
  cases hc : corrM p.1 p.2 with
  | none => rw [hc] at hf; cases hf
  | some r =>
    rw [hc] at hf
    have hf' : (if 3/10 < |r| then
        some (⟨p.1, p.2, roundTo 3 r, generateInsight p.1 p.2 r⟩ : CorrelationRecord)
      else none) = some rec := hf
    by_cases hr : 3/10 < |r|
    · rw [if_pos hr] at hf'
      injection hf' with hf'
      exact ⟨p.1, p.2, r, by simpa using hp, hc, hr, hf'.symm⟩
    · rw [if_neg hr] at hf'
      cases hf'

theorem corrRecords_complete {corrM : String → String → Option ℚ} {m : List String}
    {a b : String} {r : ℚ} (hpair : (a, b) ∈ pairsAfter m)
    (hc : corrM a b = some r) (hr : 3/10 < |r|) :
    (⟨a, b, roundTo 3 r, generateInsight a b r⟩ : CorrelationRecord) ∈
      corrRecords corrM m := by
  unfold corrRecords
  refine List.mem_filterMap.mpr ⟨(a, b), hpair, ?_⟩
  rw [hc]
  show (if 3/10 < |r| then
      some (⟨a, b, roundTo 3 r, generateInsight a b r⟩ : CorrelationRecord)
    else none) = some ⟨a, b, roundTo 3 r, generateInsight a b r⟩
  rw [if_pos hr]

/-- Claim C3: the correlation list is computed over numeric columns whose
names contain no identifier substring; fewer than 2 qualifying columns give
an empty list; each record corresponds to an unordered qualifying pair with
defined correlation of absolute value > 0.3 (the stored value rounded to 3
decimals); the list is sorted by absolute stored correlation descending and
holds at most 10 records; when at most 10 pairs qualify, every qualifying
pair is represented.  No identifier-named column ever appears. -/
theorem C3_correlations (corrM : String → String → Option ℚ)
    (numericCols dfCols : List String) :
    ((meaningfulCols numericCols dfCols).length < 2 →
      calculateCorrelations corrM numericCols dfCols = []) ∧
    (calculateCorrelations corrM numericCols dfCols).length ≤ 10 ∧
    List.Pairwise corrGe (calculateCorrelations corrM numericCols dfCols) ∧
    (∀ rec ∈ calculateCorrelations corrM numericCols dfCols,
      rec.feature_a ∈ meaningfulCols numericCols dfCols ∧
      rec.feature_b ∈ meaningfulCols numericCols dfCols ∧
      rec.feature_a ∈ numericCols ∧ rec.feature_b ∈ numericCols ∧
      isIdentifierName rec.feature_a = false ∧
      isIdentifierName rec.feature_b = false ∧
      (∃ r, corrM rec.feature_a rec.feature_b = some r ∧ 3/10 < |r| ∧
        rec.correlation = roundTo 3 r ∧
        rec.insight = generateInsight rec.feature_a rec.feature_b r)) ∧
    (∀ a b r, (a, b) ∈ pairsAfter (meaningfulCols numericCols dfCols) →
      corrM a b = some r → 3/10 < |r| →
      (corrRecords corrM (meaningfulCols numericCols dfCols)).length ≤ 10 →
      ∃ rec ∈ calculateCorrelations corrM numericCols dfCols,
        rec.feature_a = a ∧ rec.feature_b = b ∧
          rec.correlation = roundTo 3 r) := by
  have hmem_of : ∀ x ∈ meaningfulCols numericCols dfCols,
      x ∈ numericCols ∧ isIdentifierName x = false := by
    intro x hx
    unfold meaningfulCols at hx
    rcases List.mem_filter.mp hx with ⟨hxn, hp⟩
    refine ⟨hxn, ?_⟩
    rcases Bool.and_eq_true_iff.mp hp with ⟨h1, _⟩
    simpa using h1
  refine ⟨?_, ?_, ?_, ?_, ?_⟩
  · intro h
    rw [calculateCorrelations_eq, if_pos h]
  · rw [calculateCorrelations_eq]
    split
    · simp
    · exact le_trans (List.length_take_le _ _) (le_refl 10)
  · rw [calculateCorrelations_eq]
    split
    · exact List.Pairwise.nil
    · exact ((List.sorted_insertionSort corrGe _).sublist (List.take_sublist _ _))
  · intro rec hrec
    rw [calculateCorrelations_eq] at hrec
    split at hrec
    · cases hrec
    · have h1 : rec ∈ (corrRecords corrM
          (meaningfulCols numericCols dfCols)).insertionSort corrGe :=
        List.mem_of_mem_take hrec
      have h2 : rec ∈ corrRecords corrM (meaningfulCols numericCols dfCols) :=
        (List.perm_insertionSort corrGe _).mem_iff.mp h1
      obtain ⟨a, b, r, hpair, hc, hr, hform⟩ := mem_corrRecords h2
      subst hform
      obtain ⟨ham, hbm⟩ := pairsAfter_mem hpair
      obtain ⟨han, hai⟩ := hmem_of a ham
      obtain ⟨hbn, hbi⟩ := hmem_of b hbm
      exact ⟨ham, hbm, han, hbn, hai, hbi, r, hc, hr, rfl, rfl⟩
  · intro a b r hpair hc hr hcap
    by_cases hg : (meaningfulCols numericCols dfCols).length < 2
    · rw [pairsAfter_short hg] at hpair
      cases hpair
    · have hrec := corrRecords_complete hpair hc hr
      have hsortmem : (⟨a, b, roundTo 3 r, generateInsight a b r⟩ :
          CorrelationRecord) ∈ (corrRecords corrM
            (meaningfulCols numericCols dfCols)).insertionSort corrGe :=
        (List.perm_insertionSort corrGe _).mem_iff.mpr hrec
      have hlen : ((corrRecords corrM
          (meaningfulCols numericCols dfCols)).insertionSort corrGe).length ≤ 10 := by
        rw [(List.perm_insertionSort corrGe _).length_eq]
        exact hcap
      refine ⟨⟨a, b, roundTo 3 r, generateInsight a b r⟩, ?_, rfl, rfl, rfl⟩
      rw [calculateCorrelations_eq, if_neg hg, List.take_of_length_le hlen]
      exact hsortmem

/-- Witness for C3: two meaningful numeric columns plus an excluded
identifier column; the single qualifying pair (correlation 1/2) appears in
the output. -/
theorem C3_correlations_witness :
    ("alpha", "beta") ∈ pairsAfter (meaningfulCols alphaBetaCols alphaBetaCols) ∧
    alphaBetaCorr "alpha" "beta" = some (1/2) ∧
    (3/10 : ℚ) < |(1/2 : ℚ)| ∧
    (corrRecords alphaBetaCorr
      (meaningfulCols alphaBetaCols alphaBetaCols)).length ≤ 10 ∧
    ∃ rec ∈ calculateCorrelations alphaBetaCorr alphaBetaCols alphaBetaCols,
      rec.feature_a = "alpha" ∧ rec.feature_b = "beta" ∧
        rec.correlation = roundTo 3 (1/2 : ℚ) := by
  have h1 : ("alpha", "beta") ∈ pairsAfter (meaningfulCols alphaBetaCols alphaBetaCols) := by
    decide
  have h2 : alphaBetaCorr "alpha" "beta" = some (1/2) := by
    unfold alphaBetaCorr
    rw [if_pos ⟨rfl, rfl⟩]
  have h3 : (3/10 : ℚ) < |(1/2 : ℚ)| := by
    rw [abs_of_pos (by norm_num)]
    norm_num
  have h4 : (corrRecords alphaBetaCorr
      (meaningfulCols alphaBetaCols alphaBetaCols)).length ≤ 10 :=
    le_trans (List.length_filterMap_le _ _) (by decide)
  exact ⟨h1, h2, h3, h4,
    (C3_correlations alphaBetaCorr alphaBetaCols alphaBetaCols).2.2.2.2
      "alpha" "beta" (1/2) h1 h2 h3 h4⟩

/-! ## Claim C7: heatmap aggregation -/

theorem roundTo_two_one : roundTo 2 (1 : ℚ) = 1 := by
  have h := roundTo_intCast 2 1
  simpa using h

theorem heatmap_eq (df : Df) (corrM : String → String → Option ℚ) :
    heatmap df corrM =
      if (heatmapNumericNames df).length < 2 then []
      else (heatmapNumericNames df).flatMap (fun x =>
        (heatmapNumericNames df).map (fun y =>
          { x := x, y := y,
            value := match corrM x y with
              | none => 0
              | some v => roundTo 2 v })) := rfl

theorem length_grid {α β : Type} (l : List α) (f : α → List β) (n : ℕ)
    (hf : ∀ a ∈ l, (f a).length = n) : (l.flatMap f).length = l.length * n := by
  induction l with
  | nil => simp
  | cons a t ih =>
    rw [List.flatMap_cons, List.length_append, hf a (List.mem_cons_self _ _),
      ih (fun b hb => hf b (List.mem_cons_of_mem _ hb)), List.length_cons]
    ring

/-- Pandas-consistency of the correlation oracle for the two-column frame
with a constant first column: the constant column's whole row and column
(including its diagonal cell) is NaN, the non-degenerate diagonal is 1. -/
theorem constCol_diagRule : PandasDiagRule constColDf constColCorr := by
  intro c hc _
  have h5 : ssqdm [PyVal.vNum 5, PyVal.vNum 5] = 0 := by
    norm_num [ssqdm, observedValues, meanOf, List.filterMap]
  have h13 : ssqdm [PyVal.vNum 1, PyVal.vNum 3] ≠ 0 := by
    norm_num [ssqdm, observedValues, meanOf, List.filterMap]
  rcases List.mem_cons.mp hc with hc | hc
  · subst hc
    show constColCorr "a" "a" = _
    rw [if_pos h5]
    rfl
  · rcases List.mem_cons.mp hc with hc | hc
    · subst hc
      show constColCorr "b" "b" = _
      rw [if_neg h13]
      rfl
    · cases hc

/-- Claim C7 counterexample: the claim says every diagonal cell carries
self-correlation 1.  With a constant numeric column "a" (zero variance),
pandas `corr` yields NaN on that diagonal, and the NaN-to-0 mapping turns
the (a, a) cell into 0, not 1. -/
theorem C7_counterexample :
    PandasDiagRule constColDf constColCorr ∧
    heatmap constColDf constColCorr =
      [⟨"a", "a", 0⟩, ⟨"a", "b", 0⟩, ⟨"b", "a", 0⟩, ⟨"b", "b", roundTo 2 1⟩] ∧
    ¬ (∀ cell ∈ heatmap constColDf constColCorr, cell.x = cell.y →
        cell.value = 1) := by
  have heval : heatmap constColDf constColCorr =
      [⟨"a", "a", 0⟩, ⟨"a", "b", 0⟩, ⟨"b", "a", 0⟩, ⟨"b", "b", roundTo 2 1⟩] := rfl
  refine ⟨constCol_diagRule, heval, ?_⟩
  intro hall
  have h := hall ⟨"a", "a", 0⟩ (by rw [heval]; exact List.mem_cons_self _ _) rfl
  norm_num at h

/-- Claim C7 (amended): the heatmap uses the first at-most-6 numeric
columns (spec-provided column hints ignored); fewer than 2 numeric columns
give an empty result; otherwise there are exactly n*n cells (n ≤ 6, so at
most 36), one per ordered pair, each carrying the pairwise correlation
rounded to 2 decimals with NaN mapped to 0; a diagonal cell carries 1 when
its column has nonzero variance, and 0 (its NaN self-correlation mapped to
0) when the column is constant or under-observed. -/
theorem C7_heatmap_amended (df : Df) (corrM : String → String → Option ℚ)
    (hdiag : PandasDiagRule df corrM) :
    ((heatmapNumericNames df).length < 2 → heatmap df corrM = []) ∧
    (2 ≤ (heatmapNumericNames df).length →
      (heatmap df corrM).length =
        (heatmapNumericNames df).length * (heatmapNumericNames df).length) ∧
    (heatmapNumericNames df).length ≤ 6 ∧
    (heatmap df corrM).length ≤ 36 ∧
    (∀ cell ∈ heatmap df corrM,
      cell.x ∈ heatmapNumericNames df ∧ cell.y ∈ heatmapNumericNames df ∧
      (corrM cell.x cell.y = none → cell.value = 0) ∧
      (∀ r, corrM cell.x cell.y = some r → cell.value = roundTo 2 r)) ∧
    (∀ cell ∈ heatmap df corrM, cell.x = cell.y →
      ((corrM cell.x cell.x = some 1 ∧ cell.value = 1) ∨
       (corrM cell.x cell.x = none ∧ cell.value = 0))) := by
  have hle6 : (heatmapNumericNames df).length ≤ 6 := by
    unfold heatmapNumericNames
    exact List.length_take_le _ _
  have hmem : ∀ cell ∈ heatmap df corrM,
      ∃ x y, x ∈ heatmapNumericNames df ∧ y ∈ heatmapNumericNames df ∧
        cell = ⟨x, y, match corrM x y with
          | none => 0
          | some v => roundTo 2 v⟩ := by
    intro cell hcell
    rw [heatmap_eq] at hcell
    split at hcell
    · cases hcell
    · rcases List.mem_flatMap.mp hcell with ⟨x, hx, hcm⟩
      rcases List.mem_map.mp hcm with ⟨y, hy, he⟩
      exact ⟨x, y, hx, hy, he.symm⟩
  refine ⟨?_, ?_, hle6, ?_, ?_, ?_⟩
  · intro h
    rw [heatmap_eq, if_pos h]
  · intro h
    rw [heatmap_eq, if_neg (not_lt.mpr h)]
    exact length_grid _ _ _ (fun a _ => List.length_map _ _)
  · by_cases h : (heatmapNumericNames df).length < 2
    · rw [heatmap_eq, if_pos h]
      simp
    · rw [heatmap_eq, if_neg h]
      rw [length_grid _ _ (heatmapNumericNames df).length
        (fun a _ => List.length_map _ _)]
      exact Nat.mul_le_mul hle6 hle6
  · intro cell hcell
    obtain ⟨x, y, hx, hy, rfl⟩ := hmem cell hcell
    refine ⟨hx, hy, ?_, ?_⟩
    · intro hnone
      show (match corrM x y with
        | none => (0 : ℚ)
        | some v => roundTo 2 v) = (0 : ℚ)
      rw [hnone]
    · intro r hsome
      show (match corrM x y with
        | none => (0 : ℚ)
        | some v => roundTo 2 v) = roundTo 2 r
      rw [hsome]
  · intro cell hcell hxy
    obtain ⟨x, y, hx, _, rfl⟩ := hmem cell hcell
    have hxy' : x = y := hxy
    subst hxy'
    have hxn : x ∈ numericColumnsRaw df := List.mem_of_mem_take hx
    rcases List.mem_map.mp hxn with ⟨c, hcf, hcn⟩
    rcases List.mem_filter.mp hcf with ⟨hcdf, hcd⟩
    have hcd' : c.dtype = .number := by simpa using hcd
    have hd := hdiag c hcdf hcd'
    rw [hcn] at hd
    by_cases hz : ssqdm c.cells = 0
    · rw [if_pos hz] at hd
      right
      refine ⟨hd, ?_⟩
      show (match corrM x x with
        | none => (0 : ℚ)
        | some v => roundTo 2 v) = (0 : ℚ)
      rw [hd]
    · rw [if_neg hz] at hd
      left
      refine ⟨hd, ?_⟩
      show (match corrM x x with
        | none => (0 : ℚ)
        | some v => roundTo 2 v) = (1 : ℚ)
      rw [hd]
      exact roundTo_two_one

/-- Witness for C7 (amended): the two-column frame — 2 qualifying columns,
4 cells, within the 36-cell cap. -/
theorem C7_heatmap_amended_witness :
    PandasDiagRule constColDf constColCorr ∧
    2 ≤ (heatmapNumericNames constColDf).length ∧
    (heatmap constColDf constColCorr).length =
      (heatmapNumericNames constColDf).length *
        (heatmapNumericNames constColDf).length ∧
    (heatmap constColDf constColCorr).length ≤ 36 := by
  obtain ⟨_, hsq, _, hcap, _, _⟩ :=
    C7_heatmap_amended constColDf constColCorr constCol_diagRule
  exact ⟨constCol_diagRule, by decide, hsq (by decide), hcap⟩
